import Mathlib

/-!
Verification of the infrastructure-analysis CLI
(EnviroLab/location_api, single Python source file).

The program is shallowly embedded: Python strings are `List Char`, parsed
JSON values are the inductive `Json`, each Python function becomes a Lean
function over an explicit model of its network outcome, and the orchestrator
`main` returns the list of observable events (prints, HTTP requests, the
generative call, the final JSON dump) together with a normal/exceptional
result.  Python exceptions are modelled with `Except PyExn`.
-/

/-- Convert a Lean string literal to the character-list representation used
for Python strings throughout this development. -/
def strL (s : String) : List Char := s.data

/-- The ASCII whitespace stripped by the Python method `str.strip()`:
space, tab, newline, carriage return, vertical tab, form feed. -/
def isPyWs (c : Char) : Bool :=
  c == ' ' || c == '\t' || c == '\n' || c == '\r' || c == '\x0b' || c == '\x0c'

/-- The whitespace characters of the JSON grammar, the only ones skipped by
the Python module function `json.loads`. -/
def isJsonWs (c : Char) : Bool :=
  c == ' ' || c == '\t' || c == '\n' || c == '\r'

/-- Remove the longest run of `p`-characters from the end of a list. -/
def stripEnd (p : Char → Bool) (l : List Char) : List Char :=
  (l.reverse.dropWhile p).reverse

/-- Remove `p`-characters from both ends, the semantics of `str.strip()`
(with `p := isPyWs`) and of the whitespace tolerance of `json.loads`
(with `p := isJsonWs`). -/
def stripBoth (p : Char → Bool) (l : List Char) : List Char :=
  stripEnd p (l.dropWhile p)

/-- The Python substring test `pat in l` (for the nonempty patterns used
here): some suffix of `l` starts with `pat`. -/
def hasSub (pat : List Char) : List Char → Bool
  | [] => pat.isEmpty
  | l@(_ :: cs) => pat.isPrefixOf l || hasSub pat cs

/-- One left-to-right scan of the Python method `str.replace(pat, rep)`:
at each position, if `pat` matches it is consumed (non-overlapping) and
`rep` emitted, otherwise one character is copied.  The fuel argument makes
the recursion structural; `fuel = l.length` always suffices because every
step consumes at least one character. -/
def pyReplaceAux (pat rep : List Char) : Nat → List Char → List Char
  | 0, l => l
  | _ + 1, [] => []
  | fuel + 1, c :: cs =>
    if pat.isPrefixOf (c :: cs) then
      rep ++ pyReplaceAux pat rep fuel (cs.drop (pat.length - 1))
    else
      c :: pyReplaceAux pat rep fuel cs

/-- The Python method `l.replace(pat, rep)` for a nonempty `pat`. -/
def pyReplace (l pat rep : List Char) : List Char :=
  pyReplaceAux pat rep l.length l

/-- ASCII lower-to-upper case map, the effect of `str.upper` on the
characters this program can meet (Python title-casing on ASCII text). -/
def pyToUpper : Char → Char
  | 'a' => 'A' | 'b' => 'B' | 'c' => 'C' | 'd' => 'D' | 'e' => 'E' | 'f' => 'F'
  | 'g' => 'G' | 'h' => 'H' | 'i' => 'I' | 'j' => 'J' | 'k' => 'K' | 'l' => 'L'
  | 'm' => 'M' | 'n' => 'N' | 'o' => 'O' | 'p' => 'P' | 'q' => 'Q' | 'r' => 'R'
  | 's' => 'S' | 't' => 'T' | 'u' => 'U' | 'v' => 'V' | 'w' => 'W' | 'x' => 'X'
  | 'y' => 'Y' | 'z' => 'Z' | c => c

/-- ASCII upper-to-lower case map. -/
def pyToLower : Char → Char
  | 'A' => 'a' | 'B' => 'b' | 'C' => 'c' | 'D' => 'd' | 'E' => 'e' | 'F' => 'f'
  | 'G' => 'g' | 'H' => 'h' | 'I' => 'i' | 'J' => 'j' | 'K' => 'k' | 'L' => 'l'
  | 'M' => 'm' | 'N' => 'n' | 'O' => 'o' | 'P' => 'p' | 'Q' => 'q' | 'R' => 'r'
  | 'S' => 's' | 'T' => 't' | 'U' => 'u' | 'V' => 'v' | 'W' => 'w' | 'X' => 'x'
  | 'Y' => 'y' | 'Z' => 'z' | c => c

/-- ASCII cased characters, the word-tracking test of `str.title()`. -/
def pyIsAlpha (c : Char) : Bool :=
  ('a' ≤ c && c ≤ 'z') || ('A' ≤ c && c ≤ 'Z')

/-- The scan of the Python method `str.title()`: a cased character starting
a word (previous character not cased) is uppercased, a cased character
inside a word is lowercased, anything else is copied and ends the word. -/
def titleAux (prevCased : Bool) : List Char → List Char
  | [] => []
  | c :: cs =>
    if pyIsAlpha c then
      (if prevCased then pyToLower c else pyToUpper c) :: titleAux true cs
    else
      c :: titleAux false cs

/-- The Python method `s.title()`. -/
def pyTitle (l : List Char) : List Char := titleAux false l

/-- The Python replacement of each underscore character by a space; a
single-character replacement is a character map. -/
def underscoreToSpace (l : List Char) : List Char :=
  l.map (fun c => if c = '_' then ' ' else c)

/-- Category derivation applied by `main` (line 153 of the source) to the
first raw category string: replace underscores by spaces, then title-case. -/
def cleanCat (s : List Char) : List Char := pyTitle (underscoreToSpace s)

theorem pyIsAlpha_toUpper (c : Char) : pyIsAlpha (pyToUpper c) = pyIsAlpha c := by
  unfold pyToUpper
  split <;> rfl

theorem pyIsAlpha_toLower (c : Char) : pyIsAlpha (pyToLower c) = pyIsAlpha c := by
  unfold pyToLower
  split <;> rfl

theorem pyToUpper_toUpper (c : Char) : pyToUpper (pyToUpper c) = pyToUpper c := by
  have h : pyToUpper c = c ∨ pyToUpper c ∈ strL "ABCDEFGHIJKLMNOPQRSTUVWXYZ" := by
    unfold pyToUpper
    split
    all_goals first | (right; decide) | (left; rfl)
  rcases h with h | h
  · rw [h]; exact h
  · revert h
    generalize pyToUpper c = d
    intro h
    fin_cases h <;> rfl

theorem pyToLower_toLower (c : Char) : pyToLower (pyToLower c) = pyToLower c := by
  have h : pyToLower c = c ∨ pyToLower c ∈ strL "abcdefghijklmnopqrstuvwxyz" := by
    unfold pyToLower
    split
    all_goals first | (right; decide) | (left; rfl)
  rcases h with h | h
  · rw [h]; exact h
  · revert h
    generalize pyToLower c = d
    intro h
    fin_cases h <;> rfl

theorem titleAux_idem (l : List Char) :
    ∀ b, titleAux b (titleAux b l) = titleAux b l := by
  induction l with
  | nil => intro b; rfl
  | cons c cs ih =>
    intro b
    by_cases hc : pyIsAlpha c = true
    · cases b with
      | false =>
        simp only [titleAux, hc, if_true, if_false, Bool.false_eq_true]
        simp only [titleAux, pyIsAlpha_toUpper c, hc, if_true,
          pyToUpper_toUpper c, ih true]
      | true =>
        simp only [titleAux, hc, if_true]
        simp only [titleAux, pyIsAlpha_toLower c, hc, if_true,
          pyToLower_toLower c, ih true]
    · simp only [Bool.not_eq_true] at hc
      simp only [titleAux, hc, Bool.false_eq_true, if_false]
      simp only [titleAux, hc, Bool.false_eq_true, if_false, ih false]

/-- Python exceptions that the embedded code can raise or catch.  The
requests-level failures (connection errors, HTTPError from
raise_for_status, JSONDecodeError from Response.json) are modelled inside
ReqResult below because the source catches them all as RequestException. -/
inductive PyExn
  | attributeError
  | keyError
  | indexError
  | typeError
  | unboundLocalError
deriving DecidableEq

/-- A value produced by parsing JSON in Python: None, bool, int, str, list,
dict (an insertion-ordered association list).  Numbers are modelled as
integers; the program only meets integer humidity values. -/
inductive Json
  | null
  | bool (b : Bool)
  | num (n : Int)
  | str (s : List Char)
  | arr (elems : List Json)
  | obj (fields : List (List Char × Json))

/-- First-occurrence lookup in an association list, the Python dict lookup
(dicts built below never hold a key twice). -/
def lookupField : List (List Char × Json) → List Char → Option Json
  | [], _ => none
  | (k, v) :: rest, key => if k = key then some v else lookupField rest key

/-- Python dict insertion: an existing key keeps its position and gets the
new value, a new key is appended. -/
def setKey : List (List Char × Json) → List Char → Json → List (List Char × Json)
  | [], key, v => [(key, v)]
  | (k, w) :: rest, key, v =>
    if k = key then (k, v) :: rest else (k, w) :: setKey rest key v

/-- Build a Python dict from key/value pairs in order, later duplicates
overwriting earlier ones, as json.loads and dict literals do. -/
def buildDict (l : List (List Char × Json)) : List (List Char × Json) :=
  l.foldl (fun d kv => setKey d kv.1 kv.2) []

/-- Python truthiness of a parsed JSON value: None, False, 0, and the empty
string, list and dict are falsy. -/
def pyTruthy : Json → Bool
  | .null => false
  | .bool b => b
  | .num n => n != 0
  | .str s => !s.isEmpty
  | .arr xs => !xs.isEmpty
  | .obj fs => !fs.isEmpty

/-- Truthiness of an optional value, with None falsy; this is the test the
source applies with the keyword combination if-not. -/
def truthyOpt : Option Json → Bool
  | none => false
  | some j => pyTruthy j

/-- The Python subscript expression with a string key: a dict either yields
the value or raises KeyError; any non-dict raises TypeError (lists and
strings reject string indices, scalars are not subscriptable). -/
def pySubscript (j : Json) (key : List Char) : Except PyExn Json :=
  match j with
  | .obj fs =>
    match lookupField fs key with
    | some v => Except.ok v
    | none => Except.error PyExn.keyError
  | _ => Except.error PyExn.typeError

/-- The Python method call with a default, expression d.get(key, dflt):
only dicts have the attribute; a missing key yields the default. -/
def pyGetDefault (j : Json) (key : List Char) (dflt : Json) : Except PyExn Json :=
  match j with
  | .obj fs =>
    match lookupField fs key with
    | some v => Except.ok v
    | none => Except.ok dflt
  | _ => Except.error PyExn.attributeError

/-- The Python subscript expression with index 0, as applied to the category
list: first element of a list or string, IndexError when empty, KeyError
for a dict without that key, TypeError for scalars. -/
def pyIndexZero : Json → Except PyExn Json
  | .arr (x :: _) => Except.ok x
  | .arr [] => Except.error PyExn.indexError
  | .str (c :: _) => Except.ok (Json.str [c])
  | .str [] => Except.error PyExn.indexError
  | .obj _ => Except.error PyExn.keyError
  | _ => Except.error PyExn.typeError

/-- Escaping of one character inside a Python repr of a string. -/
def reprEsc (c : Char) : List Char :=
  if c = '\\' then ['\\', '\\']
  else if c = '\x27' then ['\\', '\x27']
  else if c = '\n' then ['\\', 'n']
  else if c = '\r' then ['\\', 'r']
  else if c = '\t' then ['\\', 't']
  else [c]

mutual

/-- Python repr of a parsed JSON value, used when such a value is
interpolated into an f-string as part of a container. -/
def pyRepr : Json → List Char
  | .null => strL "None"
  | .bool true => strL "True"
  | .bool false => strL "False"
  | .num n => (toString n).data
  | .str s => '\x27' :: (s.map reprEsc).flatten ++ ['\x27']
  | .arr xs => '[' :: pyReprCommaArr xs ++ [']']
  | .obj fs => '\x7b' :: pyReprCommaObj fs ++ ['\x7d']

/-- Comma-separated reprs of list elements. -/
def pyReprCommaArr : List Json → List Char
  | [] => []
  | [x] => pyRepr x
  | x :: y :: rest => pyRepr x ++ strL ", " ++ pyReprCommaArr (y :: rest)

/-- Comma-separated reprs of dict items. -/
def pyReprCommaObj : List (List Char × Json) → List Char
  | [] => []
  | [(k, v)] => pyRepr (Json.str k) ++ strL ": " ++ pyRepr v
  | (k, v) :: kv :: rest =>
    pyRepr (Json.str k) ++ strL ": " ++ pyRepr v ++ strL ", " ++
      pyReprCommaObj (kv :: rest)

end

/-- The Python conversion str(x) as applied by f-strings to a parsed JSON
value: a string is inserted verbatim, anything else via its repr. -/
def pyStrOf : Json → List Char
  | .str s => s
  | v => pyRepr v

/-- Skip JSON whitespace between tokens, as the Python json scanner does. -/
def skipWs (l : List Char) : List Char := l.dropWhile isJsonWs

/-- Match an expected literal tail (the rest of null, true, false). -/
def expectLit : List Char → List Char → Option (List Char)
  | [], l => some l
  | _ :: _, [] => none
  | c :: cs, d :: ds => if d = c then expectLit cs ds else none

/-- Map a JSON string escape to the character it denotes (the two-character
escapes of the grammar; the claims under verification never exercise the
four-hex-digit form, which is left out of the model). -/
def escChar (c : Char) : Option Char :=
  if c = '"' then some '"'
  else if c = '\\' then some '\\'
  else if c = '/' then some '/'
  else if c = 'n' then some '\n'
  else if c = 't' then some '\t'
  else if c = 'r' then some '\r'
  else if c = 'b' then some '\x08'
  else if c = 'f' then some '\x0c'
  else none

/-- Parse the body of a JSON string after the opening quote, up to and
including the closing quote. -/
def parseJString : List Char → Option (List Char × List Char)
  | [] => none
  | c :: rest =>
    if c = '"' then some ([], rest)
    else if c = '\\' then
      match rest with
      | [] => none
      | e :: rest2 =>
        match escChar e with
        | some ch => (parseJString rest2).map (fun sr => (ch :: sr.1, sr.2))
        | none => none
    else (parseJString rest).map (fun sr => (c :: sr.1, sr.2))

/-- Numeric value of a run of decimal digits. -/
def digitsToNat (ds : List Char) : Nat :=
  ds.foldl (fun a c => a * 10 + (c.toNat - 48)) 0

/-- Parse an unsigned JSON integer: a nonempty maximal digit run without a
leading zero. -/
def parseNatNum (l : List Char) : Option (Nat × List Char) :=
  if (l.takeWhile Char.isDigit).isEmpty then none
  else if (l.takeWhile Char.isDigit).head? = some '0' ∧ 2 ≤ (l.takeWhile Char.isDigit).length then none
  else some (digitsToNat (l.takeWhile Char.isDigit), l.dropWhile Char.isDigit)

/-- Parse a JSON number (integers, the only numbers this program meets). -/
def parseNum (l : List Char) : Option (Json × List Char) :=
  match l with
  | '-' :: rest => (parseNatNum rest).map (fun nr => (Json.num (-(nr.1 : Int)), nr.2))
  | _ => (parseNatNum l).map (fun nr => (Json.num (nr.1 : Int), nr.2))

mutual

/-- Parse one JSON value at the head of the input (no leading whitespace).
Fuel makes the mutual recursion structural; the wrapper jsonLoads passes
enough for any input it is given. -/
def parseVal : Nat → List Char → Option (Json × List Char)
  | 0, _ => none
  | _ + 1, [] => none
  | fuel + 1, c :: cs =>
    if c = 'n' then (expectLit (strL "ull") cs).map (fun r => (Json.null, r))
    else if c = 't' then (expectLit (strL "rue") cs).map (fun r => (Json.bool true, r))
    else if c = 'f' then (expectLit (strL "alse") cs).map (fun r => (Json.bool false, r))
    else if c = '"' then (parseJString cs).map (fun sr => (Json.str sr.1, sr.2))
    else if c = '[' then
      match skipWs cs with
      | ']' :: r => some (Json.arr [], r)
      | l1 => (parseArrElems fuel l1).map (fun xr => (Json.arr xr.1, xr.2))
    else if c = '\x7b' then
      match skipWs cs with
      | '\x7d' :: r => some (Json.obj [], r)
      | l1 => (parseObjItems fuel l1).map (fun fr => (Json.obj (buildDict fr.1), fr.2))
    else if c = '-' ∨ c.isDigit then parseNum (c :: cs)
    else none

/-- Parse the elements of a nonempty JSON array after the opening bracket
and any whitespace, up to and including the closing bracket. -/
def parseArrElems : Nat → List Char → Option (List Json × List Char)
  | 0, _ => none
  | fuel + 1, l =>
    match parseVal fuel l with
    | none => none
    | some (v, r) =>
      match skipWs r with
      | ',' :: r2 =>
        match parseArrElems fuel (skipWs r2) with
        | some (xs, r3) => some (v :: xs, r3)
        | none => none
      | ']' :: r2 => some ([v], r2)
      | _ => none

/-- Parse the items of a nonempty JSON object after the opening brace and
any whitespace, up to and including the closing brace. -/
def parseObjItems : Nat → List Char → Option (List (List Char × Json) × List Char)
  | 0, _ => none
  | fuel + 1, l =>
    match l with
    | '"' :: cs =>
      match parseJString cs with
      | none => none
      | some (k, r1) =>
        match skipWs r1 with
        | ':' :: r2 =>
          match parseVal fuel (skipWs r2) with
          | none => none
          | some (v, r3) =>
            match skipWs r3 with
            | ',' :: r4 =>
              match parseObjItems fuel (skipWs r4) with
              | some (fs, r5) => some ((k, v) :: fs, r5)
              | none => none
            | '\x7d' :: r4 => some ([(k, v)], r4)
            | _ => none
        | _ => none
    | _ => none

end

/-- The Python module function json.loads: whitespace is allowed around
the document and nowhere else outside tokens; the whole remainder must be
consumed.  Equivalent formulation: strip the JSON whitespace from both
ends and require the parser to consume everything. -/
def jsonLoads (s : List Char) : Option Json :=
  let u := stripBoth isJsonWs s
  match parseVal (u.length + 1) u with
  | some (v, r) => if r.isEmpty then some v else none
  | none => none

/-- Outcome of one requests.get call: either the call raised a
RequestException (connection error, timeout, DNS, and so on) carrying a
message, or it returned a response with a status code and a body whose
JSON decoding either succeeded or raised (carrying the decoder message).
With the requests versions this source targets, the body-decoding error is
a RequestException as well, so both are caught by the except clauses of
the source. -/
inductive ReqResult
  | raised (msg : List Char)
  | resp (code : Nat) (body : Except (List Char) Json)

/-- The check performed by Response.raise_for_status: client and server
error codes raise HTTPError, every other code passes. -/
def raisesForStatus (code : Nat) : Bool := 400 ≤ code && code ≤ 599

/-- One observable event of a run: a printed line, one of the two plain
HTTP requests, the generative-model call with the prompt it carries, or
the final json.dumps output with its indent width. -/
inductive Ev
  | out (s : List Char)
  | httpPlaces (lat lon key : List Char)
  | httpWeather (lat lon : List Char)
  | genaiCall (prompt : List Char)
  | outJson (indent : Nat) (v : Json)

/-- The Python conversion str(x) for an optional value, None printing as
the four-letter word None. -/
def pyStrOfOpt : Option Json → List Char
  | none => strL "None"
  | some v => pyStrOf v

/-- The Python comparison of the status field with the string OK: equality
holds only for that very string (get returns None when the key is absent,
and None never equals a string). -/
def statusIsOk (st : Option Json) : Bool :=
  match st with
  | some (.str s) => s == strL "OK"
  | _ => false

/-- Embedding of find_nearest_place (source lines 7 to 44): issue the
places request, raise_for_status, decode the body, and return the first
result when the status field is the string OK and the result list is
truthy; print and return None on every handled failure.  The returned pair
is the event trace and the Python outcome (an uncaught exception escapes
as Except.error). -/
def find_nearest_place (lat lon api_key : List Char) (net : ReqResult) :
    List Ev × Except PyExn (Option Json) :=
  let callEv := Ev.httpPlaces lat lon api_key
  match net with
  | .raised msg =>
    ([callEv, Ev.out (strL "An error occurred during the Places API request: " ++ msg)],
      Except.ok none)
  | .resp code body =>
    if raisesForStatus code then
      ([callEv, Ev.out (strL "An error occurred during the Places API request: " ++
        strL "HTTPError for status " ++ (toString code).data)], Except.ok none)
    else
      match body with
      | .error msg =>
        ([callEv, Ev.out (strL "An error occurred during the Places API request: " ++ msg)],
          Except.ok none)
      | .ok results =>
        match results with
        | .obj fs =>
          if statusIsOk (lookupField fs (strL "status"))
              && truthyOpt (lookupField fs (strL "results")) then
            match lookupField fs (strL "results") with
            | some r =>
              match pyIndexZero r with
              | .ok first => ([callEv], Except.ok (some first))
              | .error e => ([callEv], Except.error e)
            | none => ([callEv], Except.error PyExn.keyError)
          else
            ([callEv, Ev.out (strL "Error from Places API: " ++
              pyStrOfOpt (lookupField fs (strL "status")) ++ strL " - " ++
              pyStrOf ((lookupField fs (strL "error_message")).getD
                (Json.str (strL "No results found."))))], Except.ok none)
        | _ => ([callEv], Except.error PyExn.attributeError)

/-- Embedding of get_current_humidity (source lines 46 to 68): issue the
weather request, decode, and take the nested path; a RequestException
(including raise_for_status and body decoding) and a KeyError are caught
and yield None with a printed line, while any other exception (a TypeError
from subscripting a non-dict) escapes. -/
def get_current_humidity (lat lon : List Char) (net : ReqResult) :
    List Ev × Except PyExn (Option Json) :=
  let callEv := Ev.httpWeather lat lon
  match net with
  | .raised msg =>
    ([callEv, Ev.out (strL "An error occurred fetching humidity data: " ++ msg)],
      Except.ok none)
  | .resp code body =>
    if raisesForStatus code then
      ([callEv, Ev.out (strL "An error occurred fetching humidity data: " ++
        strL "HTTPError for status " ++ (toString code).data)], Except.ok none)
    else
      match body with
      | .error msg =>
        ([callEv, Ev.out (strL "An error occurred fetching humidity data: " ++ msg)],
          Except.ok none)
      | .ok data =>
        match pySubscript data (strL "current") with
        | .ok current =>
          match pySubscript current (strL "relative_humidity_2m") with
          | .ok v => ([callEv], Except.ok (some v))
          | .error PyExn.keyError =>
            ([callEv, Ev.out (strL "Could not parse humidity from weather API response.")],
              Except.ok none)
          | .error e => ([callEv], Except.error e)
        | .error PyExn.keyError =>
          ([callEv, Ev.out (strL "Could not parse humidity from weather API response.")],
            Except.ok none)
        | .error e => ([callEv], Except.error e)

/-- The code-fence opener removed by the reply cleaner. -/
def fenceJsonMark : List Char := strL "```json"

/-- The bare code fence removed by the reply cleaner. -/
def fenceMark : List Char := strL "```"

/-- Reply cleaning of generate_infrastructure_analysis (source line 116):
strip surrounding whitespace, then delete every occurrence of the fence
opener and of the bare fence. -/
def cleanReply (text : List Char) : List Char :=
  pyReplace (pyReplace (stripBoth isPyWs text) fenceJsonMark []) fenceMark []

/-- The humidity argument passed to the narrative generator: either the
parsed JSON value from the weather service or the substituted Python
string, rendered into the prompt by str(). -/
inductive HumVal
  | fromJson (v : Json)
  | pystr (s : List Char)

/-- Rendering of the humidity argument inside the f-string. -/
def humStr : HumVal → List Char
  | .fromJson v => pyStrOf v
  | .pystr s => s

/-- The f-string prompt of generate_infrastructure_analysis (source lines
95 to 111), with the three inputs interpolated by str(). -/
def buildPrompt (place_name place_type humidity : List Char) : List Char :=
  strL "\n    Analyze the following piece of infrastructure based on the provided data.\n\n    - Infrastructure Name: \"" ++ place_name ++
  strL "\"\n    - Infrastructure Type: \"" ++ place_type ++
  strL "\"\n    - Current Local Humidity: " ++ humidity ++
  strL "%\n\n    Based on this information, generate a valid JSON object with the following structure and keys:\n    \x7b\n        \"ai_summary\": \"A concise, single-paragraph summary. Explain what this infrastructure is used for and how the specified high or low humidity might impact its operations, materials, or the people who use it.\",\n        \"resources_used\": [\"A list of 2-3 primary resources this type of infrastructure typically consumes (e.g., electricity, water, fuel).\"],\n        \"impact_reduction\": [\"A list of 2-3 actionable suggestions for how this type of infrastructure could reduce its environmental impact.\"],\n        \"is_critical\": \"A boolean value (true or false) indicating if this infrastructure type is generally considered critical for a community\x27s function and safety.\"\n    \x7d\n\n    Provide only the raw JSON object in your response, with no additional text or markdown formatting.\n    "

/-- Embedding of generate_infrastructure_analysis (source lines 71 to 121).
The remote call is modelled by its outcome: either the reply text or the
message of the exception it raised.  When the call raises, the except
clause prints the first diagnostic line and then evaluates response.text;
the name response was never bound on that path, so the handler itself
raises UnboundLocalError, which escapes to the caller. -/
def generate_infrastructure_analysis (place_name : Json) (place_type : List Char)
    (humidity : HumVal) (api_key : List Char) (configOk : Bool)
    (configMsg : List Char) (reply : Except (List Char) (List Char)) :
    List Ev × Except PyExn (Option Json) :=
  if api_key.isEmpty then
    ([Ev.out (strL "Error: GEMINI_API_KEY environment variable not set.")], Except.ok none)
  else if !configOk then
    ([Ev.out (strL "Error configuring Gemini API: " ++ configMsg)], Except.ok none)
  else
    let prompt := buildPrompt (pyStrOf place_name) place_type (humStr humidity)
    match reply with
    | .ok text =>
      match jsonLoads (cleanReply text) with
      | some v => ([Ev.genaiCall prompt], Except.ok (some v))
      | none =>
        ([Ev.genaiCall prompt,
          Ev.out (strL "An error occurred during Gemini API call: " ++ strL "JSONDecodeError"),
          Ev.out (strL "Received text: " ++ text)], Except.ok none)
    | .error msg =>
      ([Ev.genaiCall prompt,
        Ev.out (strL "An error occurred during Gemini API call: " ++ msg)],
        Except.error PyExn.unboundLocalError)

/-- The category derivation of main (source line 153): get the category
list with default, take its first element, replace underscores and
title-case.  A present but empty list makes the subscript raise
IndexError; a non-string first element has no replace method. -/
def deriveType (place : Json) : Except PyExn (List Char) :=
  match pyGetDefault place (strL "types") (Json.arr [Json.str (strL "unknown")]) with
  | .error e => Except.error e
  | .ok tv =>
    match pyIndexZero tv with
    | .error e => Except.error e
    | .ok t0 =>
      match t0 with
      | .str s => Except.ok (cleanCat s)
      | _ => Except.error PyExn.attributeError

/-- The final dict literal of main (source lines 171 to 175): name and
type first, then every key of the analysis dict spliced in, later writers
overwriting earlier ones in place. -/
def mergeFields (place_name : Json) (place_type : List Char)
    (afs : List (List Char × Json)) : List (List Char × Json) :=
  afs.foldl (fun d kv => setKey d kv.1 kv.2)
    [(strL "name", place_name), (strL "type", Json.str place_type)]

/-- Python truthiness of the value of os.getenv: None (variable absent) and
the empty string are falsy. -/
def pyFalsyEnv : Option (List Char) → Bool
  | none => true
  | some s => s.isEmpty

/-- The string value of an environment variable known to be set. -/
def envVal : Option (List Char) → List Char
  | none => []
  | some s => s

/-- Everything outside the program that one run can observe: the rendered
coordinate arguments, the two environment variables, the outcomes of the
two HTTP requests, of the generative-client configuration and of the
generative call. -/
structure World where
  latS : List Char
  lonS : List Char
  google_maps_api_key : Option (List Char)
  gemini_api_key : Option (List Char)
  placesNet : ReqResult
  weatherNet : ReqResult
  genConfigOk : Bool
  genConfigMsg : List Char
  genReply : Except (List Char) (List Char)

/-- The humidity value passed on by main (source lines 157 to 161): the
fetched value, or the substituted string when the lookup returned None. -/
def humOfOpt : Option Json → HumVal
  | some v => HumVal.fromJson v
  | none => HumVal.pystr (strL "not available")

/-- Embedding of main (source lines 123 to 178): credential checks, the
four pipeline stages, and the two truthiness-guarded aborts.  Returns the
full event trace and the normal or exceptional termination.  (The source
name main is reserved by Lean for an entry point, hence the suffix.) -/
def mainFn (w : World) : List Ev × Except PyExn Unit :=
  if pyFalsyEnv w.google_maps_api_key then
    ([Ev.out (strL "Error: GOOGLE_MAPS_API_KEY environment variable not set.")], Except.ok ())
  else if pyFalsyEnv w.gemini_api_key then
    ([Ev.out (strL "Error: GEMINI_API_KEY environment variable not set.")], Except.ok ())
  else
    let searchEv := Ev.out (strL "Searching for nearest infrastructure near (" ++
      w.latS ++ strL ", " ++ w.lonS ++ strL ")...")
    let abortPlace := fun (e1 : List Ev) =>
      (searchEv :: e1 ++ [Ev.out (strL "Could not find any nearby infrastructure. Exiting.")],
        (Except.ok () : Except PyExn Unit))
    match find_nearest_place w.latS w.lonS (envVal w.google_maps_api_key) w.placesNet with
    | (e1, .error ex) => (searchEv :: e1, Except.error ex)
    | (e1, .ok none) => abortPlace e1
    | (e1, .ok (some place)) =>
      if pyTruthy place = false then abortPlace e1
      else
        match pyGetDefault place (strL "name") (Json.str (strL "N/A")) with
        | .error ex => (searchEv :: e1, Except.error ex)
        | .ok place_name =>
          match deriveType place with
          | .error ex => (searchEv :: e1, Except.error ex)
          | .ok place_type =>
            let foundEv := Ev.out (strL "Found nearest place: " ++ pyStrOf place_name ++
              strL " (Type: " ++ place_type ++ strL ")")
            let fetchEv := Ev.out (strL "Fetching current climate data...")
            match get_current_humidity w.latS w.lonS w.weatherNet with
            | (e2, .error ex) =>
              (searchEv :: e1 ++ [foundEv, fetchEv] ++ e2, Except.error ex)
            | (e2, .ok humOpt) =>
              let humEvs : List Ev := match humOpt with
                | some _ => []
                | none => [Ev.out (strL "Could not retrieve humidity data. Proceeding without it.")]
              let genEv := Ev.out (strL "Generating AI analysis...")
              match generate_infrastructure_analysis place_name place_type (humOfOpt humOpt)
                  (envVal w.gemini_api_key) w.genConfigOk w.genConfigMsg w.genReply with
              | (e3, .error ex) =>
                (searchEv :: e1 ++ [foundEv, fetchEv] ++ e2 ++ humEvs ++ genEv :: e3,
                  Except.error ex)
              | (e3, .ok aiOpt) =>
                let pre := searchEv :: e1 ++ [foundEv, fetchEv] ++ e2 ++ humEvs ++ genEv :: e3
                match aiOpt with
                | none =>
                  (pre ++ [Ev.out (strL "Failed to generate AI analysis. Exiting.")],
                    Except.ok ())
                | some ai =>
                  if pyTruthy ai = false then
                    (pre ++ [Ev.out (strL "Failed to generate AI analysis. Exiting.")],
                      Except.ok ())
                  else
                    match ai with
                    | .obj afs =>
                      (pre ++ [Ev.out (strL "\n--- Analysis Complete ---"),
                        Ev.outJson 4 (Json.obj (mergeFields place_name place_type afs))],
                        Except.ok ())
                    | _ => (pre, Except.error PyExn.typeError)

theorem pyToUpper_eq_underscore {c : Char} (h : pyToUpper c = '_') : c = '_' := by
  revert h
  unfold pyToUpper
  split <;> intro h <;> first | exact h | exact absurd h (by decide)

theorem pyToLower_eq_underscore {c : Char} (h : pyToLower c = '_') : c = '_' := by
  revert h
  unfold pyToLower
  split <;> intro h <;> first | exact h | exact absurd h (by decide)

theorem underscoreToSpace_no_underscore (l : List Char) :
    ∀ c ∈ underscoreToSpace l, c ≠ '_' := by
  intro c hc
  rcases List.mem_map.mp hc with ⟨a, _, ha⟩
  by_cases h : a = '_'
  · simp only [h, if_true] at ha
    intro he
    rw [← ha] at he
    exact absurd he (by decide)
  · simp only [h, if_false] at ha
    rw [← ha]
    exact h

theorem underscoreToSpace_eq_self {l : List Char} (h : ∀ c ∈ l, c ≠ '_') :
    underscoreToSpace l = l := by
  induction l with
  | nil => rfl
  | cons c cs ih =>
    have hc : c ≠ '_' := h c (List.mem_cons_self c cs)
    simp only [underscoreToSpace, List.map_cons, if_neg hc]
    have := ih (fun d hd => h d (List.mem_cons_of_mem c hd))
    simpa [underscoreToSpace] using this

theorem titleAux_no_underscore {l : List Char} (h : ∀ c ∈ l, c ≠ '_') :
    ∀ b, ∀ c ∈ titleAux b l, c ≠ '_' := by
  induction l with
  | nil => intro b c hc; cases hc
  | cons a as ih =>
    intro b c hc
    have ha : a ≠ '_' := h a (List.mem_cons_self a as)
    have htail := ih (fun d hd => h d (List.mem_cons_of_mem a hd))
    by_cases hal : pyIsAlpha a = true
    · simp only [titleAux, hal, if_true] at hc
      rcases List.mem_cons.mp hc with hc | hc
      · cases b with
        | true =>
          simp only [if_true] at hc
          subst hc
          intro he
          exact ha (pyToLower_eq_underscore he)
        | false =>
          simp only [Bool.false_eq_true, if_false] at hc
          subst hc
          intro he
          exact ha (pyToUpper_eq_underscore he)
      · exact htail true c hc
    · simp only [Bool.not_eq_true] at hal
      simp only [titleAux, hal, Bool.false_eq_true, if_false] at hc
      rcases List.mem_cons.mp hc with hc | hc
      · subst hc; exact ha
      · exact htail false c hc

theorem cleanCat_idem (s : List Char) : cleanCat (cleanCat s) = cleanCat s := by
  unfold cleanCat pyTitle
  rw [underscoreToSpace_eq_self
    (titleAux_no_underscore (underscoreToSpace_no_underscore s) false)]
  exact titleAux_idem (underscoreToSpace s) false

theorem dropWhile_all_append {p : Char → Bool} {w : List Char}
    (h : ∀ c ∈ w, p c = true) (m : List Char) :
    (w ++ m).dropWhile p = m.dropWhile p := by
  induction w with
  | nil => rfl
  | cons c cs ih =>
    simp only [List.cons_append, List.dropWhile_cons, h c (List.mem_cons_self c cs),
      if_true]
    exact ih (fun d hd => h d (List.mem_cons_of_mem c hd))

theorem dropWhile_cons_neg {p : Char → Bool} {c : Char} (h : p c = false)
    (l : List Char) : (c :: l).dropWhile p = c :: l := by
  simp [List.dropWhile_cons, h]

theorem stripEnd_append_all {p : Char → Bool} {w : List Char}
    (h : ∀ c ∈ w, p c = true) (m : List Char) :
    stripEnd p (m ++ w) = stripEnd p m := by
  unfold stripEnd
  rw [List.reverse_append]
  rw [dropWhile_all_append (fun c hc => h c (List.mem_reverse.mp hc))]

theorem stripEnd_last_neg {p : Char → Bool} {c : Char} (h : p c = false)
    (l : List Char) : stripEnd p (l ++ [c]) = l ++ [c] := by
  unfold stripEnd
  rw [List.reverse_append]
  simp only [List.reverse_cons, List.reverse_nil, List.nil_append, List.singleton_append]
  rw [dropWhile_cons_neg h]
  simp

theorem stripEnd_decomp (p : Char → Bool) (m : List Char) :
    ∃ w, m = stripEnd p m ++ w ∧ ∀ c ∈ w, p c = true := by
  refine ⟨(m.reverse.takeWhile p).reverse, ?_, ?_⟩
  · conv_lhs => rw [← List.reverse_reverse m, ← List.takeWhile_append_dropWhile p m.reverse]
    rw [List.reverse_append]
    rfl
  · intro c hc
    exact List.mem_takeWhile_imp (List.mem_reverse.mp hc)

theorem stripEnd_front (p : Char → Bool) (m : List Char) : stripEnd p m <+: m := by
  obtain ⟨w, hw, -⟩ := stripEnd_decomp p m
  exact ⟨w, hw.symm⟩

theorem hasSub_nonempty {pat l : List Char} (h : hasSub pat l = false) : pat ≠ [] := by
  intro hp
  subst hp
  cases l with
  | nil => simp [hasSub] at h
  | cons c cs => simp [hasSub, List.isPrefixOf] at h

theorem hasSub_cons_false {pat : List Char} {c : Char} {l : List Char}
    (h : hasSub pat (c :: l) = false) : hasSub pat l = false := by
  simp only [hasSub, Bool.or_eq_false_iff] at h
  exact h.2

theorem isPrefixOf_cons_false {pat : List Char} {c : Char} {l : List Char}
    (h : hasSub pat (c :: l) = false) : pat.isPrefixOf (c :: l) = false := by
  simp only [hasSub, Bool.or_eq_false_iff] at h
  exact h.1

theorem isPrefixOf_true_iff {a l : List Char} : a.isPrefixOf l = true ↔ a <+: l :=
  List.isPrefixOf_iff_prefix

theorem hasSub_of_leading {pat l : List Char} (h : pat <+: l) : hasSub pat l = true := by
  cases l with
  | nil =>
    have : pat = [] := List.prefix_nil.mp h
    simp [this, hasSub]
  | cons c cs =>
    simp only [hasSub, Bool.or_eq_true]
    exact Or.inl (isPrefixOf_true_iff.mpr h)

theorem hasSub_false_of_suffix {pat l' l : List Char} (hs : l' <:+ l)
    (h : hasSub pat l = false) : hasSub pat l' = false := by
  induction l generalizing l' with
  | nil =>
    rw [List.suffix_nil.mp hs]
    exact h
  | cons c cs ih =>
    rcases List.suffix_cons_iff.mp hs with rfl | hs'
    · exact h
    · exact ih hs' (hasSub_cons_false h)

theorem hasSub_false_of_leading {pat l' l : List Char} (hp : l' <+: l)
    (h : hasSub pat l = false) : hasSub pat l' = false := by
  induction l generalizing l' with
  | nil =>
    rw [List.prefix_nil.mp hp]
    exact h
  | cons c cs ih =>
    cases l' with
    | nil =>
      have hne := hasSub_nonempty h
      cases pat with
      | nil => exact absurd rfl hne
      | cons p ps => rfl
    | cons d ds =>
      obtain ⟨r, hr⟩ := hp
      rw [List.cons_append] at hr
      have h1 : d = c := (List.cons.injEq d (ds ++ r) c cs).mp hr |>.1
      have h2 : ds ++ r = cs := (List.cons.injEq d (ds ++ r) c cs).mp hr |>.2
      subst h1
      have hds : ds <+: cs := ⟨r, h2⟩
      simp only [hasSub, Bool.or_eq_false_iff]
      refine ⟨?_, ih hds (hasSub_cons_false h)⟩
      by_contra hb
      simp only [Bool.not_eq_false] at hb
      have hpre : pat <+: d :: ds := isPrefixOf_true_iff.mp hb
      have hpre2 : pat <+: d :: cs :=
        hpre.trans ⟨r, by rw [List.cons_append, h2]⟩
      have hh := hasSub_of_leading hpre2
      rw [h] at hh
      cases hh

theorem isPrefixOf_append_self (a b : List Char) : a.isPrefixOf (a ++ b) = true := by
  induction a with
  | nil => cases b <;> rfl
  | cons c cs ih => simp [List.isPrefixOf, ih]

theorem hasSub_middle (pat x y : List Char) : hasSub pat (x ++ pat ++ y) = true := by
  induction x with
  | nil =>
    simp only [List.nil_append]
    exact hasSub_of_leading ⟨y, rfl⟩
  | cons c cs ih =>
    cases pat with
    | nil => simp [hasSub, List.isPrefixOf]
    | cons p ps =>
      simp only [List.cons_append, hasSub, Bool.or_eq_true]
      exact Or.inr ih

theorem pyReplaceAux_no_occurrence {pat rep : List Char} :
    ∀ fuel l, hasSub pat l = false → pyReplaceAux pat rep fuel l = l := by
  intro fuel
  induction fuel with
  | zero => intro l _; rfl
  | succ f ih =>
    intro l h
    cases l with
    | nil => rfl
    | cons c cs =>
      simp only [pyReplaceAux, isPrefixOf_cons_false h, Bool.false_eq_true, if_false]
      rw [ih cs (hasSub_cons_false h)]

theorem pyReplace_no_occurrence {l pat rep : List Char} (h : hasSub pat l = false) :
    pyReplace l pat rep = l :=
  pyReplaceAux_no_occurrence l.length l h

theorem pyReplaceAux_prefix_step {pat rep l : List Char} {fuel : Nat} (hne : pat ≠ []) :
    pyReplaceAux pat rep (fuel + 1) (pat ++ l) = rep ++ pyReplaceAux pat rep fuel l := by
  cases pat with
  | nil => exact absurd rfl hne
  | cons p ps =>
    show pyReplaceAux (p :: ps) rep (fuel + 1) (p :: (ps ++ l)) = _
    simp only [pyReplaceAux]
    rw [if_pos]
    · congr 1
      have hl : (p :: ps).length - 1 = ps.length := by simp
      rw [hl, List.drop_left]
    · exact isPrefixOf_append_self (p :: ps) l

theorem no_triple_at_head {c : Char} {l' tl : List Char}
    (h : hasSub fenceMark (c :: l') = false) :
    fenceMark.isPrefixOf (c :: (l' ++ '\n' :: tl)) = false := by
  by_contra hb
  simp only [Bool.not_eq_false] at hb
  obtain ⟨r, hr⟩ := isPrefixOf_true_iff.mp hb
  have hr' : '`' :: '`' :: '`' :: r = c :: (l' ++ '\n' :: tl) := hr
  have hc : '`' = c := by injection hr'
  have hr2 : '`' :: '`' :: r = l' ++ '\n' :: tl := by injection hr'
  cases l' with
  | nil =>
    simp only [List.nil_append] at hr2
    have : '`' = '\n' := by injection hr2
    exact absurd this (by decide)
  | cons a l2 =>
    rw [List.cons_append] at hr2
    have ha : '`' = a := by injection hr2
    have hr3 : '`' :: r = l2 ++ '\n' :: tl := by injection hr2
    cases l2 with
    | nil =>
      simp only [List.nil_append] at hr3
      have : '`' = '\n' := by injection hr3
      exact absurd this (by decide)
    | cons b l3 =>
      rw [List.cons_append] at hr3
      have hbq : '`' = b := by injection hr3
      have hpre : fenceMark <+: c :: a :: b :: l3 := by
        refine ⟨l3, ?_⟩
        show '`' :: '`' :: '`' :: l3 = c :: a :: b :: l3
        rw [← hc, ← ha, ← hbq]
      have := hasSub_of_leading hpre
      rw [h] at this
      cases this

theorem isPrefixOf_mono {a b l : List Char} (hab : a <+: b)
    (h : b.isPrefixOf l = true) : a.isPrefixOf l = true :=
  isPrefixOf_true_iff.mpr (hab.trans (isPrefixOf_true_iff.mp h))

theorem fj_no_occurrence : ∀ t, hasSub fenceMark t = false →
    hasSub fenceJsonMark (t ++ '\n' :: fenceMark) = false := by
  intro t
  induction t with
  | nil => intro _; decide
  | cons c t' ih =>
    intro h
    rw [List.cons_append]
    simp only [hasSub, Bool.or_eq_false_iff]
    constructor
    · by_contra hb
      simp only [Bool.not_eq_false] at hb
      have hbt : fenceMark.isPrefixOf (c :: (t' ++ '\n' :: fenceMark)) = true :=
        isPrefixOf_mono ⟨strL "json", rfl⟩ hb
      rw [no_triple_at_head h] at hbt
      cases hbt
    · exact ih (hasSub_cons_false h)

theorem replace_fence_tail : ∀ l, hasSub fenceMark l = false →
    pyReplace (l ++ '\n' :: fenceMark) fenceMark [] = l ++ ['\n'] := by
  intro l
  induction l with
  | nil => intro _; rfl
  | cons c l' ih =>
    intro h
    show pyReplaceAux fenceMark [] ((c :: (l' ++ '\n' :: fenceMark)).length)
      (c :: (l' ++ '\n' :: fenceMark)) = c :: (l' ++ ['\n'])
    simp only [List.length_cons]
    simp only [pyReplaceAux, no_triple_at_head h, Bool.false_eq_true, if_false]
    congr 1
    exact ih (hasSub_cons_false h)

/-- A generative reply wrapped in a markdown fence, the tolerated shape
named by the specification. -/
def fencedReply (t : List Char) : List Char :=
  fenceJsonMark ++ '\n' :: t ++ '\n' :: fenceMark

theorem hasSub_fence_cons_nl {t : List Char} (h : hasSub fenceMark t = false) :
    hasSub fenceMark ('\n' :: t) = false := by
  simp only [hasSub, Bool.or_eq_false_iff]
  refine ⟨?_, h⟩
  show fenceMark.isPrefixOf ('\n' :: t) = false
  simp [fenceMark, strL, List.isPrefixOf]

theorem stripBoth_fencedReply (t : List Char) :
    stripBoth isPyWs (fencedReply t) = fencedReply t := by
  have hshape : fencedReply t = (fenceJsonMark ++ '\n' :: t ++ ['\n', '`', '`']) ++ ['`'] := by
    simp [fencedReply, fenceMark, fenceJsonMark, strL]
  unfold stripBoth
  rw [show (fencedReply t).dropWhile isPyWs = fencedReply t from
    dropWhile_cons_neg (by decide) _]
  rw [hshape, stripEnd_last_neg (by decide)]

theorem cleanReply_fenced {t : List Char} (h : hasSub fenceMark t = false) :
    cleanReply (fencedReply t) = '\n' :: t ++ ['\n'] := by
  unfold cleanReply
  rw [stripBoth_fencedReply]
  have hR : hasSub fenceJsonMark (('\n' :: t) ++ '\n' :: fenceMark) = false :=
    fj_no_occurrence ('\n' :: t) (hasSub_fence_cons_nl h)
  have step1 : pyReplace (fencedReply t) fenceJsonMark [] =
      '\n' :: t ++ '\n' :: fenceMark := by
    unfold pyReplace fencedReply
    simp only [List.append_assoc]
    rw [List.length_append]
    rw [show fenceJsonMark.length = 7 from rfl]
    rw [Nat.add_comm]
    rw [show ('\n' :: t ++ '\n' :: fenceMark).length + 7 =
      (('\n' :: t ++ '\n' :: fenceMark).length + 6) + 1 from rfl]
    rw [pyReplaceAux_prefix_step (by simp [fenceJsonMark, strL])]
    rw [pyReplaceAux_no_occurrence _ _ hR]
    rfl
  rw [step1]
  exact replace_fence_tail ('\n' :: t) (hasSub_fence_cons_nl h)

theorem expectLit_decomp : ∀ pat l r, expectLit pat l = some r → l = pat ++ r := by
  intro pat
  induction pat with
  | nil =>
    intro l r h
    simp only [expectLit, Option.some.injEq] at h
    rw [h, List.nil_append]
  | cons c cs ih =>
    intro l r h
    cases l with
    | nil => cases h
    | cons d ds =>
      simp only [expectLit] at h
      split_ifs at h with hd
      rw [List.cons_append, hd, ih ds r h]

theorem parseJString_decomp :
    ∀ n l s r, l.length ≤ n → parseJString l = some (s, r) →
      ∃ p, l = p ++ '"' :: r := by
  intro n
  induction n with
  | zero =>
    intro l s r hlen h
    cases l with
    | nil => cases h
    | cons c cs =>
      simp only [List.length_cons] at hlen
      omega
  | succ n ih =>
    intro l s r hlen h
    cases l with
    | nil => cases h
    | cons c cs =>
      rw [parseJString.eq_def] at h
      simp only at h
      split_ifs at h with hq hbs
      · have hr : cs = r := by
          have h2 := congrArg Prod.snd ((Option.some.injEq _ _).mp h)
          simpa using h2
        exact ⟨[], by rw [List.nil_append, hq, hr]⟩
      · cases cs with
        | nil => cases h
        | cons e rest2 =>
          simp only at h
          cases hesc : escChar e with
          | none => rw [hesc] at h; cases h
          | some ch =>
            rw [hesc] at h
            obtain ⟨⟨s2, r2⟩, hps, heq⟩ := Option.map_eq_some'.mp h
            have hr : r2 = r := by
              have h2 := congrArg Prod.snd heq
              simpa using h2
            have hlen2 : rest2.length ≤ n := by
              simp only [List.length_cons] at hlen
              omega
            obtain ⟨p2, hp2⟩ := ih rest2 s2 r2 hlen2 hps
            refine ⟨c :: e :: p2, ?_⟩
            rw [hp2, hr]
            rfl
      · obtain ⟨⟨s2, r2⟩, hps, heq⟩ := Option.map_eq_some'.mp h
        have hr : r2 = r := by
          have h2 := congrArg Prod.snd heq
          simpa using h2
        have hlen2 : cs.length ≤ n := by
          simp only [List.length_cons] at hlen
          omega
        obtain ⟨p2, hp2⟩ := ih cs s2 r2 hlen2 hps
        refine ⟨c :: p2, ?_⟩
        rw [hp2, hr]
        rfl

theorem parseNatNum_decomp {l : List Char} {n : Nat} {r : List Char}
    (h : parseNatNum l = some (n, r)) :
    ∃ p c, l = p ++ c :: r ∧ c.isDigit = true := by
  unfold parseNatNum at h
  split_ifs at h with h1 h2
  have hr : l.dropWhile Char.isDigit = r := by
    have h2 := congrArg Prod.snd ((Option.some.injEq _ _).mp h)
    simpa using h2
  have hne : l.takeWhile Char.isDigit ≠ [] := by
    intro he
    rw [List.isEmpty_iff] at h1
    exact h1 he
  have hlast := List.dropLast_append_getLast hne
  have hmem : (l.takeWhile Char.isDigit).getLast hne ∈ l.takeWhile Char.isDigit :=
    List.getLast_mem hne
  subst hr
  refine ⟨(l.takeWhile Char.isDigit).dropLast, (l.takeWhile Char.isDigit).getLast hne,
    ?_, List.mem_takeWhile_imp hmem⟩
  conv_lhs => rw [← List.takeWhile_append_dropWhile Char.isDigit l]
  rw [show (l.takeWhile Char.isDigit).dropLast ++
      (l.takeWhile Char.isDigit).getLast hne :: l.dropWhile Char.isDigit =
      ((l.takeWhile Char.isDigit).dropLast ++
        [(l.takeWhile Char.isDigit).getLast hne]) ++ l.dropWhile Char.isDigit from by simp]
  rw [hlast]

theorem parseNum_decomp {l : List Char} {v : Json} {r : List Char}
    (h : parseNum l = some (v, r)) :
    ∃ p c, l = p ++ c :: r ∧ c.isDigit = true := by
  rw [parseNum.eq_def] at h
  split at h
  · rename_i rest
    obtain ⟨⟨n1, r1⟩, hps, heq⟩ := Option.map_eq_some'.mp h
    have hr : r1 = r := by
      have h2 := congrArg Prod.snd heq
      simpa using h2
    obtain ⟨p, c, hp, hc⟩ := parseNatNum_decomp hps
    refine ⟨'-' :: p, c, ?_, hc⟩
    rw [hp, hr]
    rfl
  · obtain ⟨⟨n1, r1⟩, hps, heq⟩ := Option.map_eq_some'.mp h
    have hr : r1 = r := by
      have h2 := congrArg Prod.snd heq
      simpa using h2
    obtain ⟨p, c, hp, hc⟩ := parseNatNum_decomp hps
    exact ⟨p, c, by rw [hp, hr], hc⟩

theorem digit_not_pyWs {c : Char} (h : c.isDigit = true) : isPyWs c = false := by
  by_contra hb
  simp only [Bool.not_eq_false] at hb
  simp only [isPyWs, Bool.or_eq_true, beq_iff_eq] at hb
  rcases hb with ((((rfl | rfl) | rfl) | rfl) | rfl) | rfl <;> simp [Char.isDigit] at h

theorem jsonWs_imp_pyWs {c : Char} (h : isJsonWs c = true) : isPyWs c = true := by
  simp only [isJsonWs, Bool.or_eq_true, beq_iff_eq] at h
  rcases h with ((rfl | rfl) | rfl) | rfl <;> decide

theorem skipWs_decomp (l : List Char) :
    ∃ w, l = w ++ skipWs l ∧ ∀ c ∈ w, isJsonWs c = true := by
  refine ⟨l.takeWhile isJsonWs, ?_, fun c hc => List.mem_takeWhile_imp hc⟩
  show l = l.takeWhile isJsonWs ++ l.dropWhile isJsonWs
  exact (List.takeWhile_append_dropWhile isJsonWs l).symm

theorem parse_decomp : ∀ fuel : Nat,
    (∀ l v r, parseVal fuel l = some (v, r) →
      ∃ p c, l = p ++ c :: r ∧ isPyWs c = false)
    ∧ (∀ l xs r, parseArrElems fuel l = some (xs, r) → ∃ p, l = p ++ ']' :: r)
    ∧ (∀ l fs r, parseObjItems fuel l = some (fs, r) → ∃ p, l = p ++ '\x7d' :: r) := by
  intro fuel
  induction fuel with
  | zero =>
    refine ⟨fun l v r h => ?_, fun l xs r h => ?_, fun l fs r h => ?_⟩ <;> cases h
  | succ f ih =>
    obtain ⟨ihV, ihA, ihO⟩ := ih
    refine ⟨?_, ?_, ?_⟩
    · intro l v r h
      cases l with
      | nil => cases h
      | cons c cs =>
        rw [parseVal.eq_def] at h
        simp only at h
        split_ifs at h with hn ht hf hq hbk hbr hnum
        · obtain ⟨u, hexp, hequ⟩ := Option.map_eq_some'.mp h
          have hru : u = r := by simpa using congrArg Prod.snd hequ
          rw [hru] at hexp
          have hcs := expectLit_decomp _ _ _ hexp
          subst hn
          refine ⟨['n', 'u', 'l'], 'l', ?_, by decide⟩
          rw [hcs]
          rfl
        · obtain ⟨u, hexp, hequ⟩ := Option.map_eq_some'.mp h
          have hru : u = r := by simpa using congrArg Prod.snd hequ
          rw [hru] at hexp
          have hcs := expectLit_decomp _ _ _ hexp
          subst ht
          refine ⟨['t', 'r', 'u'], 'e', ?_, by decide⟩
          rw [hcs]
          rfl
        · obtain ⟨u, hexp, hequ⟩ := Option.map_eq_some'.mp h
          have hru : u = r := by simpa using congrArg Prod.snd hequ
          rw [hru] at hexp
          have hcs := expectLit_decomp _ _ _ hexp
          subst hf
          refine ⟨['f', 'a', 'l', 's'], 'e', ?_, by decide⟩
          rw [hcs]
          rfl
        · obtain ⟨⟨s2, r2⟩, hps, hequ⟩ := Option.map_eq_some'.mp h
          have hr2 : r2 = r := by simpa using congrArg Prod.snd hequ
          rw [hr2] at hps
          obtain ⟨p2, hp2⟩ := parseJString_decomp cs.length cs s2 r (le_refl _) hps
          subst hq
          refine ⟨'"' :: p2, '"', ?_, by decide⟩
          rw [hp2]
          rfl
        · subst hbk
          split at h
          · rename_i r2 heq
            have hr2 : r2 = r := by
              simpa using congrArg Prod.snd ((Option.some.injEq _ _).mp h)
            obtain ⟨w, hw, -⟩ := skipWs_decomp cs
            refine ⟨'[' :: w, ']', ?_, by decide⟩
            rw [hw, heq, hr2]
            rfl
          · obtain ⟨⟨xs2, r2⟩, hpa, hequ⟩ := Option.map_eq_some'.mp h
            have hr2 : r2 = r := by simpa using congrArg Prod.snd hequ
            rw [hr2] at hpa
            obtain ⟨p2, hp2⟩ := ihA _ _ _ hpa
            obtain ⟨w, hw, -⟩ := skipWs_decomp cs
            refine ⟨'[' :: (w ++ p2), ']', ?_, by decide⟩
            rw [hw, hp2]
            simp [List.append_assoc]
        · subst hbr
          split at h
          · rename_i r2 heq
            have hr2 : r2 = r := by
              simpa using congrArg Prod.snd ((Option.some.injEq _ _).mp h)
            obtain ⟨w, hw, -⟩ := skipWs_decomp cs
            refine ⟨'\x7b' :: w, '\x7d', ?_, by decide⟩
            rw [hw, heq, hr2]
            rfl
          · obtain ⟨⟨fs2, r2⟩, hpa, hequ⟩ := Option.map_eq_some'.mp h
            have hr2 : r2 = r := by simpa using congrArg Prod.snd hequ
            rw [hr2] at hpa
            obtain ⟨p2, hp2⟩ := ihO _ _ _ hpa
            obtain ⟨w, hw, -⟩ := skipWs_decomp cs
            refine ⟨'\x7b' :: (w ++ p2), '\x7d', ?_, by decide⟩
            rw [hw, hp2]
            simp [List.append_assoc]
        · obtain ⟨p, cd, hp, hcd⟩ := parseNum_decomp h
          exact ⟨p, cd, hp, digit_not_pyWs hcd⟩
    · intro l xs r h
      rw [parseArrElems.eq_def] at h
      simp only at h
      split at h
      · cases h
      · rename_i v1 r1 heqV
        obtain ⟨pv, cv, hpv, -⟩ := ihV _ _ _ heqV
        split at h
        · rename_i r2 heq2
          split at h
          · rename_i xs3 r3 heq3
            have hr3 : r3 = r := by
              simpa using congrArg Prod.snd ((Option.some.injEq _ _).mp h)
            rw [hr3] at heq3
            obtain ⟨p3, hp3⟩ := ihA _ _ _ heq3
            obtain ⟨w1, hw1, -⟩ := skipWs_decomp r1
            obtain ⟨w2, hw2, -⟩ := skipWs_decomp r2
            refine ⟨pv ++ cv :: w1 ++ ',' :: w2 ++ p3, ?_⟩
            rw [hpv, hw1, heq2, hw2, hp3]
            simp [List.append_assoc]
          · cases h
        · rename_i r2 heq2
          have hr2 : r2 = r := by
            simpa using congrArg Prod.snd ((Option.some.injEq _ _).mp h)
          rw [hr2] at heq2
          obtain ⟨w1, hw1, -⟩ := skipWs_decomp r1
          refine ⟨pv ++ cv :: w1, ?_⟩
          rw [hpv, hw1, heq2]
          simp [List.append_assoc]
        · cases h
    · intro l fs r h
      rw [parseObjItems.eq_def] at h
      simp only at h
      split at h
      · rename_i cs
        split at h
        · cases h
        · rename_i k r1 heqS
          obtain ⟨pk, hpk⟩ := parseJString_decomp cs.length cs k r1 (le_refl _) heqS
          split at h
          · rename_i r2 heq2
            split at h
            · cases h
            · rename_i v1 r3 heqV
              obtain ⟨pv, cv, hpv, -⟩ := ihV _ _ _ heqV
              split at h
              · rename_i r4 heq4
                split at h
                · rename_i fs2 r5 heq5
                  have hr5 : r5 = r := by
                    simpa using congrArg Prod.snd ((Option.some.injEq _ _).mp h)
                  rw [hr5] at heq5
                  obtain ⟨p5, hp5⟩ := ihO _ _ _ heq5
                  obtain ⟨w1, hw1, -⟩ := skipWs_decomp r1
                  obtain ⟨w2, hw2, -⟩ := skipWs_decomp r2
                  obtain ⟨w3, hw3, -⟩ := skipWs_decomp r3
                  obtain ⟨w4, hw4, -⟩ := skipWs_decomp r4
                  refine ⟨'"' :: pk ++ '"' :: w1 ++ ':' :: w2 ++ pv ++ cv :: w3 ++
                    ',' :: w4 ++ p5, ?_⟩
                  rw [hpk, hw1, heq2, hw2, hpv, hw3, heq4, hw4, hp5]
                  simp [List.append_assoc]
                · cases h
              · rename_i r4 heq4
                have hr4 : r4 = r := by
                  simpa using congrArg Prod.snd ((Option.some.injEq _ _).mp h)
                rw [hr4] at heq4
                obtain ⟨w1, hw1, -⟩ := skipWs_decomp r1
                obtain ⟨w2, hw2, -⟩ := skipWs_decomp r2
                obtain ⟨w3, hw3, -⟩ := skipWs_decomp r3
                refine ⟨'"' :: pk ++ '"' :: w1 ++ ':' :: w2 ++ pv ++ cv :: w3, ?_⟩
                rw [hpk, hw1, heq2, hw2, hpv, hw3, heq4]
                simp [List.append_assoc]
              · cases h
          · cases h
      · cases h

theorem parseVal_head {f : Nat} {c : Char} {cs : List Char} {x : Json × List Char}
    (h : parseVal f (c :: cs) = some x) : isPyWs c = false := by
  by_contra hb
  simp only [Bool.not_eq_false] at hb
  simp only [isPyWs, Bool.or_eq_true, beq_iff_eq] at hb
  cases f with
  | zero => cases h
  | succ f =>
    rw [parseVal.eq_def] at h
    simp only at h
    rcases hb with ((((rfl | rfl) | rfl) | rfl) | rfl) | rfl <;> simp_all

theorem stripBoth_cons_ws {p : Char → Bool} {c : Char} (h : p c = true) (l : List Char) :
    stripBoth p (c :: l) = stripBoth p l := by
  unfold stripBoth
  rw [List.dropWhile_cons, h]
  simp

theorem dropWhile_append_ne_nil {p : Char → Bool} {l : List Char}
    (h : l.dropWhile p ≠ []) (m : List Char) :
    (l ++ m).dropWhile p = l.dropWhile p ++ m := by
  induction l with
  | nil => exact absurd rfl h
  | cons c cs ih =>
    by_cases hc : p c = true
    · rw [List.cons_append, List.dropWhile_cons, hc]
      rw [List.dropWhile_cons, hc] at h ⊢
      simp only [if_true] at h ⊢
      exact ih h
    · simp only [Bool.not_eq_true] at hc
      rw [List.cons_append, dropWhile_cons_neg hc, dropWhile_cons_neg hc]
      rfl

theorem stripBoth_append_last_ws {p : Char → Bool} {c : Char} (h : p c = true)
    (l : List Char) : stripBoth p (l ++ [c]) = stripBoth p l := by
  unfold stripBoth
  by_cases hd : l.dropWhile p = []
  · have hall : ∀ x ∈ l, p x = true := by
      intro x hx
      exact List.dropWhile_eq_nil_iff.mp hd x hx
    rw [dropWhile_all_append hall, hd]
    rw [List.dropWhile_cons, h]
    simp
  · rw [dropWhile_append_ne_nil hd]
    refine stripEnd_append_all ?_ _
    intro x hx
    have : x = c := List.mem_singleton.mp hx
    rw [this]
    exact h

theorem jsonLoads_pad (t : List Char) :
    jsonLoads (('\n' :: t) ++ ['\n']) = jsonLoads t := by
  unfold jsonLoads
  rw [show ('\n' :: t) ++ ['\n'] = '\n' :: (t ++ ['\n']) from rfl]
  rw [stripBoth_cons_ws (by decide), stripBoth_append_last_ws (by decide)]

theorem jsonLoads_pyStrip {t : List Char} {v : Json} (h : jsonLoads t = some v) :
    jsonLoads (stripBoth isPyWs t) = some v := by
  obtain ⟨u, hu⟩ : ∃ u, stripBoth isJsonWs t = u := ⟨_, rfl⟩
  simp only [jsonLoads] at h
  rw [hu] at h
  split at h
  case h_2 => cases h
  rename_i v' r heqP
  split_ifs at h with hre
  have hr : r = [] := List.isEmpty_iff.mp hre
  subst hr
  obtain ⟨p, cl, hdec, hclw⟩ := (parse_decomp _).1 _ _ _ heqP
  cases u with
  | nil => cases heqP
  | cons c0 rest =>
    have hc0 : isPyWs c0 = false := parseVal_head heqP
    have hdw1 : t = t.takeWhile isJsonWs ++ t.dropWhile isJsonWs :=
      (List.takeWhile_append_dropWhile isJsonWs t).symm
    obtain ⟨w2, hw2, hall2⟩ := stripEnd_decomp isJsonWs (t.dropWhile isJsonWs)
    have hse : stripEnd isJsonWs (t.dropWhile isJsonWs) = c0 :: rest := hu
    rw [hse] at hw2
    have ht : t = t.takeWhile isJsonWs ++ ((c0 :: rest) ++ w2) := by
      conv_lhs => rw [hdw1]
      rw [hw2]
    have hstep1 : List.dropWhile isPyWs t = (c0 :: rest) ++ w2 := by
      conv_lhs => rw [ht]
      rw [dropWhile_all_append (fun c hc => jsonWs_imp_pyWs (List.mem_takeWhile_imp hc))]
      exact dropWhile_cons_neg hc0 _
    have hstep2 : stripBoth isPyWs t = c0 :: rest := by
      show stripEnd isPyWs (List.dropWhile isPyWs t) = c0 :: rest
      rw [hstep1]
      rw [stripEnd_append_all (fun c hc => jsonWs_imp_pyWs (hall2 c hc))]
      rw [hdec]
      exact stripEnd_last_neg hclw _
    have hc0j : isJsonWs c0 = false := by
      by_contra hb
      simp only [Bool.not_eq_false] at hb
      rw [jsonWs_imp_pyWs hb] at hc0
      cases hc0
    have hclj : isJsonWs cl = false := by
      by_contra hb
      simp only [Bool.not_eq_false] at hb
      rw [jsonWs_imp_pyWs hb] at hclw
      cases hclw
    have hs2 : stripBoth isJsonWs (stripBoth isPyWs t) = c0 :: rest := by
      rw [hstep2]
      show stripEnd isJsonWs (List.dropWhile isJsonWs (c0 :: rest)) = c0 :: rest
      rw [dropWhile_cons_neg hc0j]
      rw [hdec]
      exact stripEnd_last_neg hclj _
    simp only [jsonLoads]
    rw [hs2, heqP]
    simpa using h

theorem hasSub_mono_pat {a b l : List Char} (hab : b <+: a)
    (h : hasSub a l = true) : hasSub b l = true := by
  induction l with
  | nil =>
    simp only [hasSub, List.isEmpty_iff] at h ⊢
    rw [h] at hab
    exact List.prefix_nil.mp hab
  | cons c cs ih =>
    simp only [hasSub, Bool.or_eq_true] at h ⊢
    rcases h with h | h
    · exact Or.inl (isPrefixOf_mono hab h)
    · exact Or.inr (ih h)

theorem cleanReply_bare {t : List Char} (h : hasSub fenceMark t = false) :
    cleanReply t = stripBoth isPyWs t := by
  unfold cleanReply
  have hstrip : hasSub fenceMark (stripBoth isPyWs t) = false := by
    apply hasSub_false_of_leading (stripEnd_front _ _)
    exact hasSub_false_of_suffix (List.dropWhile_suffix _) h
  have hfj : hasSub fenceJsonMark (stripBoth isPyWs t) = false := by
    by_contra hb
    simp only [Bool.not_eq_false] at hb
    have := hasSub_mono_pat
      (show fenceMark <+: fenceJsonMark from ⟨strL "json", by decide⟩) hb
    rw [hstrip] at this
    cases this
  rw [pyReplace_no_occurrence hfj, pyReplace_no_occurrence hstrip]

/-- C7: cleaning the narrative reply (strip surrounding whitespace, delete
the literal fence markers, parse as JSON) maps a markdown-fenced reply and
the bare reply to the same parsed value: for every JSON text t free of
fence markers, the cleaned fenced wrapping and the cleaned bare text both
parse to exactly the value t parses to. -/
theorem C7_clean_fence_agrees (t : List Char) (v : Json)
    (hfence : hasSub fenceMark t = false) (hparse : jsonLoads t = some v) :
    jsonLoads (cleanReply (fencedReply t)) = some v ∧
      jsonLoads (cleanReply t) = some v := by
  constructor
  · rw [cleanReply_fenced hfence, jsonLoads_pad, hparse]
  · rw [cleanReply_bare hfence]
    exact jsonLoads_pyStrip hparse

theorem C7_witness :
    hasSub fenceMark (strL "\x7b\"a\": 1\x7d") = false ∧
    jsonLoads (strL "\x7b\"a\": 1\x7d") = some (Json.obj [(strL "a", Json.num 1)]) ∧
    (jsonLoads (cleanReply (fencedReply (strL "\x7b\"a\": 1\x7d"))) =
        some (Json.obj [(strL "a", Json.num 1)]) ∧
      jsonLoads (cleanReply (strL "\x7b\"a\": 1\x7d")) =
        some (Json.obj [(strL "a", Json.num 1)])) :=
  ⟨rfl, rfl, C7_clean_fence_agrees (strL "\x7b\"a\": 1\x7d")
    (Json.obj [(strL "a", Json.num 1)]) rfl rfl⟩

/-- C9: the category derivation (replace underscores with spaces, then
title-case every word) is idempotent: applied to its own output it returns
the same string; in particular power_station and Power Station both map to
Power Station. -/
theorem C9_cleanCat_idempotent :
    (∀ s : List Char, cleanCat (cleanCat s) = cleanCat s) ∧
    cleanCat (strL "power_station") = strL "Power Station" ∧
    cleanCat (strL "Power Station") = strL "Power Station" :=
  ⟨cleanCat_idem, rfl, rfl⟩

/-- C2 counterexample: on a place whose category list is present but empty
the derivation does not produce Unknown; the subscript raises IndexError,
refuting the claim that the empty category list yields Unknown and that
the derivation never fails. -/
theorem C2_counterexample :
    deriveType (Json.obj [(strL "types", Json.arr [])]) =
      Except.error PyExn.indexError ∧
    (Except.error PyExn.indexError : Except PyExn (List Char)) ≠
      Except.ok (strL "Unknown") :=
  ⟨rfl, by simp⟩

/-- C2 amended: the derived category is the first element of the category
list cleaned up, and the literal unknown (giving Unknown) is substituted
only when the category key is absent; a present but empty category list
makes the derivation raise IndexError instead of producing Unknown. -/
theorem C2_deriveType_amended :
    (∀ fs s rest, lookupField fs (strL "types") = some (Json.arr (Json.str s :: rest)) →
      deriveType (Json.obj fs) = Except.ok (cleanCat s)) ∧
    (∀ fs, lookupField fs (strL "types") = none →
      deriveType (Json.obj fs) = Except.ok (strL "Unknown")) ∧
    (∀ fs, lookupField fs (strL "types") = some (Json.arr []) →
      deriveType (Json.obj fs) = Except.error PyExn.indexError) := by
  refine ⟨?_, ?_, ?_⟩
  · intro fs s rest h
    simp [deriveType, pyGetDefault, h, pyIndexZero]
  · intro fs h
    simp [deriveType, pyGetDefault, h, pyIndexZero]
    rfl
  · intro fs h
    simp [deriveType, pyGetDefault, h, pyIndexZero]

theorem C2_witness :
    lookupField [(strL "types", Json.arr [Json.str (strL "school")])] (strL "types") =
      some (Json.arr (Json.str (strL "school") :: [])) ∧
    deriveType (Json.obj [(strL "types", Json.arr [Json.str (strL "school")])]) =
      Except.ok (cleanCat (strL "school")) ∧
    lookupField ([] : List (List Char × Json)) (strL "types") = none ∧
    deriveType (Json.obj []) = Except.ok (strL "Unknown") :=
  ⟨rfl, C2_deriveType_amended.1 _ _ _ rfl, rfl, C2_deriveType_amended.2.1 [] rfl⟩

theorem raisesForStatus_false {code : Nat} (h : ¬(400 ≤ code ∧ code ≤ 599)) :
    raisesForStatus code = false := by
  unfold raisesForStatus
  by_cases h4 : 400 ≤ code
  · have h5 : ¬ code ≤ 599 := fun h5 => h ⟨h4, h5⟩
    simp [h5]
  · simp [h4]

theorem raisesForStatus_true {code : Nat} (h4 : 400 ≤ code) (h5 : code ≤ 599) :
    raisesForStatus code = true := by
  simp [raisesForStatus, h4, h5]

/-- C1 counterexample: a response with HTTP status 300 (not a 2xx status)
whose body has status OK and a nonempty result list makes the resolver
return the first result rather than Absent, refuting the claim that every
non-2xx combination yields Absent. -/
theorem C1_counterexample :
    (find_nearest_place (strL "35.0") (strL "-79.0") (strL "gk")
      (ReqResult.resp 300 (Except.ok (Json.obj
        [(strL "status", Json.str (strL "OK")),
         (strL "results", Json.arr [Json.obj
           [(strL "name", Json.str (strL "Plant"))]])])))).2 =
      Except.ok (some (Json.obj [(strL "name", Json.str (strL "Plant"))])) ∧
    ¬ (200 ≤ 300 ∧ 300 ≤ 299) :=
  ⟨rfl, by omega⟩

/-- C1 amended: the resolver returns the first element of the result list
exactly when raise_for_status does not raise (HTTP status outside the
400 to 599 range, not only 2xx), the decoded body is an object whose
status field is the string OK and whose result list is truthy; it returns
Absent when the request raised, the status is in 400 to 599, the body
failed to decode, or the body object misses that success condition. -/
theorem C1_find_nearest_amended :
    (∀ lat lon key code fs x xs, ¬(400 ≤ code ∧ code ≤ 599) →
      lookupField fs (strL "status") = some (Json.str (strL "OK")) →
      lookupField fs (strL "results") = some (Json.arr (x :: xs)) →
      (find_nearest_place lat lon key
        (ReqResult.resp code (Except.ok (Json.obj fs)))).2 = Except.ok (some x)) ∧
    (∀ lat lon key msg,
      (find_nearest_place lat lon key (ReqResult.raised msg)).2 = Except.ok none) ∧
    (∀ lat lon key code body, 400 ≤ code → code ≤ 599 →
      (find_nearest_place lat lon key (ReqResult.resp code body)).2 = Except.ok none) ∧
    (∀ lat lon key code emsg, ¬(400 ≤ code ∧ code ≤ 599) →
      (find_nearest_place lat lon key
        (ReqResult.resp code (Except.error emsg))).2 = Except.ok none) ∧
    (∀ lat lon key code fs, ¬(400 ≤ code ∧ code ≤ 599) →
      (statusIsOk (lookupField fs (strL "status")) = false ∨
        truthyOpt (lookupField fs (strL "results")) = false) →
      (find_nearest_place lat lon key
        (ReqResult.resp code (Except.ok (Json.obj fs)))).2 = Except.ok none) := by
  refine ⟨?_, ?_, ?_, ?_, ?_⟩
  · intro lat lon key code fs x xs hcode hst hres
    simp [find_nearest_place, raisesForStatus_false hcode, hst, hres,
      statusIsOk, truthyOpt, pyTruthy, pyIndexZero]
  · intro lat lon key msg
    rfl
  · intro lat lon key code body h4 h5
    simp [find_nearest_place, raisesForStatus_true h4 h5]
  · intro lat lon key code emsg hcode
    simp [find_nearest_place, raisesForStatus_false hcode]
  · intro lat lon key code fs hcode hfail
    rcases hfail with hfail | hfail <;>
      simp [find_nearest_place, raisesForStatus_false hcode, hfail]

theorem C1_witness :
    (find_nearest_place (strL "1") (strL "2") (strL "k")
      (ReqResult.resp 200 (Except.ok (Json.obj
        [(strL "status", Json.str (strL "OK")),
         (strL "results", Json.arr [Json.str (strL "spot")])])))).2 =
      Except.ok (some (Json.str (strL "spot"))) ∧
    (find_nearest_place (strL "1") (strL "2") (strL "k")
      (ReqResult.raised (strL "timeout"))).2 = Except.ok none ∧
    (find_nearest_place (strL "1") (strL "2") (strL "k")
      (ReqResult.resp 404 (Except.ok Json.null))).2 = Except.ok none ∧
    (find_nearest_place (strL "1") (strL "2") (strL "k")
      (ReqResult.resp 200 (Except.error (strL "bad json")))).2 = Except.ok none ∧
    (find_nearest_place (strL "1") (strL "2") (strL "k")
      (ReqResult.resp 200 (Except.ok (Json.obj
        [(strL "status", Json.str (strL "ZERO_RESULTS"))])))).2 = Except.ok none :=
  ⟨C1_find_nearest_amended.1 _ _ _ 200 _ _ _ (by omega) rfl rfl,
   C1_find_nearest_amended.2.1 _ _ _ _,
   C1_find_nearest_amended.2.2.1 _ _ _ 404 _ (by omega) (by omega),
   C1_find_nearest_amended.2.2.2.1 _ _ _ 200 _ (by omega),
   C1_find_nearest_amended.2.2.2.2 _ _ _ 200 _ (by omega) (Or.inl rfl)⟩

/-- C4 counterexample: a well-formed 200 response whose body is the object
with current mapped to the integer 5 misses the nested path, yet the
lookup does not return Absent; subscripting the non-dict intermediate
value raises an uncaught TypeError. -/
theorem C4_counterexample :
    (get_current_humidity (strL "35.0") (strL "-79.0")
      (ReqResult.resp 200 (Except.ok (Json.obj [(strL "current", Json.num 5)])))).2 =
      Except.error PyExn.typeError ∧
    (Except.error PyExn.typeError : Except PyExn (Option Json)) ≠ Except.ok none :=
  ⟨rfl, by simp⟩

/-- C4 amended: the climate lookup returns exactly the value at the nested
path current dot relative_humidity_2m; it returns Absent on a request
failure (raised exception, 400 to 599 status, body decode failure) or a
missing dictionary key on the path (KeyError); but when an intermediate
value on the path is present and not an object the subscript raises an
uncaught TypeError instead of returning Absent. -/
theorem C4_humidity_amended :
    (∀ lat lon code fs cfs v, ¬(400 ≤ code ∧ code ≤ 599) →
      lookupField fs (strL "current") = some (Json.obj cfs) →
      lookupField cfs (strL "relative_humidity_2m") = some v →
      (get_current_humidity lat lon
        (ReqResult.resp code (Except.ok (Json.obj fs)))).2 = Except.ok (some v)) ∧
    (∀ lat lon msg,
      (get_current_humidity lat lon (ReqResult.raised msg)).2 = Except.ok none) ∧
    (∀ lat lon code body, 400 ≤ code → code ≤ 599 →
      (get_current_humidity lat lon (ReqResult.resp code body)).2 = Except.ok none) ∧
    (∀ lat lon code emsg, ¬(400 ≤ code ∧ code ≤ 599) →
      (get_current_humidity lat lon
        (ReqResult.resp code (Except.error emsg))).2 = Except.ok none) ∧
    (∀ lat lon code fs, ¬(400 ≤ code ∧ code ≤ 599) →
      lookupField fs (strL "current") = none →
      (get_current_humidity lat lon
        (ReqResult.resp code (Except.ok (Json.obj fs)))).2 = Except.ok none) ∧
    (∀ lat lon code fs cfs, ¬(400 ≤ code ∧ code ≤ 599) →
      lookupField fs (strL "current") = some (Json.obj cfs) →
      lookupField cfs (strL "relative_humidity_2m") = none →
      (get_current_humidity lat lon
        (ReqResult.resp code (Except.ok (Json.obj fs)))).2 = Except.ok none) := by
  refine ⟨?_, ?_, ?_, ?_, ?_, ?_⟩
  · intro lat lon code fs cfs v hcode hcur hval
    simp [get_current_humidity, raisesForStatus_false hcode, pySubscript, hcur, hval]
  · intro lat lon msg
    rfl
  · intro lat lon code body h4 h5
    simp [get_current_humidity, raisesForStatus_true h4 h5]
  · intro lat lon code emsg hcode
    simp [get_current_humidity, raisesForStatus_false hcode]
  · intro lat lon code fs hcode hcur
    simp [get_current_humidity, raisesForStatus_false hcode, pySubscript, hcur]
  · intro lat lon code fs cfs hcode hcur hval
    simp [get_current_humidity, raisesForStatus_false hcode, pySubscript, hcur, hval]

theorem C4_witness :
    (get_current_humidity (strL "1") (strL "2")
      (ReqResult.resp 200 (Except.ok (Json.obj [(strL "current",
        Json.obj [(strL "relative_humidity_2m", Json.num 62)])])))).2 =
      Except.ok (some (Json.num 62)) ∧
    (get_current_humidity (strL "1") (strL "2")
      (ReqResult.raised (strL "timeout"))).2 = Except.ok none ∧
    (get_current_humidity (strL "1") (strL "2")
      (ReqResult.resp 500 (Except.ok Json.null))).2 = Except.ok none ∧
    (get_current_humidity (strL "1") (strL "2")
      (ReqResult.resp 200 (Except.ok (Json.obj [])))).2 = Except.ok none :=
  ⟨C4_humidity_amended.1 _ _ 200 _ _ _ (by omega) rfl rfl,
   C4_humidity_amended.2.1 _ _ _,
   C4_humidity_amended.2.2.1 _ _ 500 _ (by omega) (by omega),
   C4_humidity_amended.2.2.2.2.1 _ _ 200 _ (by omega) rfl⟩

/-- C3: when the remote generative call itself raises, the handler prints
the first diagnostic and then evaluates response.text with the name
response never bound, so generate_infrastructure_analysis raises
UnboundLocalError to its caller instead of returning Absent; only the
parse-failure mode returns Absent as documented. -/
theorem C3_unbound_response :
    (generate_infrastructure_analysis (Json.str (strL "Main Street School"))
      (strL "School") (HumVal.pystr (strL "not available")) (strL "gemini-key")
      true [] (Except.error (strL "403 quota exceeded"))).2 =
      Except.error PyExn.unboundLocalError ∧
    (generate_infrastructure_analysis (Json.str (strL "Main Street School"))
      (strL "School") (HumVal.pystr (strL "not available")) (strL "gemini-key")
      true [] (Except.ok (strL "this is not json"))).2 = Except.ok none :=
  ⟨rfl, rfl⟩

/-- Events that reach the network: the two HTTP requests and the
generative call. -/
def isNetworkEv : Ev → Bool
  | .httpPlaces _ _ _ => true
  | .httpWeather _ _ => true
  | .genaiCall _ => true
  | _ => false

/-- C8: when either required credential is absent from the environment (or
empty), main prints the matching error line and returns before any
network-reaching event: the whole trace is that single line, so no HTTP
request and no generative call is ever issued in the run. -/
theorem C8_abort_before_network (w : World)
    (h : pyFalsyEnv w.google_maps_api_key = true ∨
      pyFalsyEnv w.gemini_api_key = true) :
    ((mainFn w).1 =
        [Ev.out (strL "Error: GOOGLE_MAPS_API_KEY environment variable not set.")] ∨
      (mainFn w).1 =
        [Ev.out (strL "Error: GEMINI_API_KEY environment variable not set.")]) ∧
    (mainFn w).1.all (fun e => !isNetworkEv e) = true := by
  by_cases hg : pyFalsyEnv w.google_maps_api_key = true
  · constructor
    · left
      simp [mainFn, hg]
    · simp [mainFn, hg, isNetworkEv]
  · have hge : pyFalsyEnv w.gemini_api_key = true := by
      rcases h with h | h
      · exact absurd h hg
      · exact h
    simp only [Bool.not_eq_true] at hg
    constructor
    · right
      simp [mainFn, hg, hge]
    · simp [mainFn, hg, hge, isNetworkEv]

/-- A world whose credential for the place search is absent, used to
witness the abort theorem. -/
def wMissingKey : World :=
  { latS := strL "35.9132", lonS := strL "-79.0558",
    google_maps_api_key := none, gemini_api_key := some (strL "gem-key"),
    placesNet := ReqResult.raised [], weatherNet := ReqResult.raised [],
    genConfigOk := true, genConfigMsg := [], genReply := Except.ok [] }

theorem C8_witness :
    (pyFalsyEnv wMissingKey.google_maps_api_key = true ∨
      pyFalsyEnv wMissingKey.gemini_api_key = true) ∧
    (((mainFn wMissingKey).1 =
        [Ev.out (strL "Error: GOOGLE_MAPS_API_KEY environment variable not set.")] ∨
      (mainFn wMissingKey).1 =
        [Ev.out (strL "Error: GEMINI_API_KEY environment variable not set.")]) ∧
    (mainFn wMissingKey).1.all (fun e => !isNetworkEv e) = true) :=
  ⟨Or.inl rfl, C8_abort_before_network wMissingKey (Or.inl rfl)⟩

/-- The analysis-failure line printed by main. -/
def isFailLine : Ev → Bool
  | .out s => s == strL "Failed to generate AI analysis. Exiting."
  | _ => false

/-- The no-infrastructure abort line printed by main. -/
def isAbortLine : Ev → Bool
  | .out s => s == strL "Could not find any nearby infrastructure. Exiting."
  | _ => false

/-- The final JSON dump event. -/
def isJsonDump : Ev → Bool
  | .outJson _ _ => true
  | _ => false

/-- A run in which every stage succeeds but the generative reply is the
empty JSON object, a falsy value. -/
def wEmptyAnalysis : World :=
  { latS := strL "35.9132", lonS := strL "-79.0558",
    google_maps_api_key := some (strL "maps-key"),
    gemini_api_key := some (strL "gem-key"),
    placesNet := ReqResult.resp 200 (Except.ok (Json.obj
      [(strL "status", Json.str (strL "OK")),
       (strL "results", Json.arr [Json.obj
         [(strL "name", Json.str (strL "Town School")),
          (strL "types", Json.arr [Json.str (strL "school")])]])])),
    weatherNet := ReqResult.resp 200 (Except.ok (Json.obj
      [(strL "current", Json.obj [(strL "relative_humidity_2m", Json.num 62)])])),
    genConfigOk := true, genConfigMsg := [],
    genReply := Except.ok (strL "\x7b\x7d") }

/-- The same run except that the first place-search result is the empty
dict, a falsy value. -/
def wEmptyPlace : World :=
  { wEmptyAnalysis with
    placesNet := ReqResult.resp 200 (Except.ok (Json.obj
      [(strL "status", Json.str (strL "OK")),
       (strL "results", Json.arr [Json.obj []])])) }

/-- C10: a generative reply that parses to the falsy empty JSON object
makes the orchestrator print the analysis-failure line and exit normally
with no JSON report, although no error occurred; and the same truthiness
test governs the place abort: a resolved place that is the empty dict
triggers the no-infrastructure abort with no JSON report. -/
theorem C10_falsy_truthiness :
    (mainFn wEmptyAnalysis).1.any isFailLine = true ∧
    (mainFn wEmptyAnalysis).1.any isJsonDump = false ∧
    (mainFn wEmptyAnalysis).2 = Except.ok () ∧
    (mainFn wEmptyPlace).1.any isAbortLine = true ∧
    (mainFn wEmptyPlace).1.any isJsonDump = false ∧
    (mainFn wEmptyPlace).2 = Except.ok () :=
  ⟨rfl, rfl, rfl, rfl, rfl, rfl⟩

theorem generate_calls_model (place_name : Json) (place_type : List Char)
    (hv : HumVal) (key : List Char) (hkey : key.isEmpty = false)
    (msg : List Char) (reply : Except (List Char) (List Char)) :
    ∃ tail, (generate_infrastructure_analysis place_name place_type hv key
        true msg reply).1 =
      Ev.genaiCall (buildPrompt (pyStrOf place_name) place_type (humStr hv)) :: tail := by
  unfold generate_infrastructure_analysis
  simp only [hkey, Bool.false_eq_true, if_false, Bool.not_true]
  cases reply with
  | ok text =>
    cases hjl : jsonLoads (cleanReply text) with
    | some v =>
      simp only [hjl]
      exact ⟨[], rfl⟩
    | none =>
      simp only [hjl]
      exact ⟨_, rfl⟩
  | error m => exact ⟨_, rfl⟩

/-- C5: when the climate lookup yields Absent, main substitutes the
literal string not available, the built narrative prompt contains that
literal substring in place of a numeric humidity, and the pipeline still
prints the generation banner and issues the generative call (the failure
is non-fatal). -/
theorem C5_not_available_degradation (w : World) (e1 e2 : List Ev)
    (place place_name : Json) (place_type : List Char)
    (h1 : pyFalsyEnv w.google_maps_api_key = false)
    (h2 : pyFalsyEnv w.gemini_api_key = false)
    (hplace : find_nearest_place w.latS w.lonS (envVal w.google_maps_api_key)
      w.placesNet = (e1, Except.ok (some place)))
    (htruthy : pyTruthy place = true)
    (hname : pyGetDefault place (strL "name") (Json.str (strL "N/A")) =
      Except.ok place_name)
    (htype : deriveType place = Except.ok place_type)
    (hhum : get_current_humidity w.latS w.lonS w.weatherNet = (e2, Except.ok none))
    (hcfg : w.genConfigOk = true) :
    Ev.out (strL "Could not retrieve humidity data. Proceeding without it.") ∈
      (mainFn w).1 ∧
    Ev.out (strL "Generating AI analysis...") ∈ (mainFn w).1 ∧
    Ev.genaiCall (buildPrompt (pyStrOf place_name) place_type (strL "not available")) ∈
      (mainFn w).1 ∧
    hasSub (strL "not available")
      (buildPrompt (pyStrOf place_name) place_type (strL "not available")) = true := by
  have hkey : (envVal w.gemini_api_key).isEmpty = false := by
    cases hgem : w.gemini_api_key with
    | none => rw [hgem] at h2; simp [pyFalsyEnv] at h2
    | some s =>
      rw [hgem] at h2
      simpa [pyFalsyEnv, envVal] using h2
  obtain ⟨E3, res, hGen⟩ : ∃ E3 res,
      generate_infrastructure_analysis place_name place_type (humOfOpt none)
        (envVal w.gemini_api_key) w.genConfigOk w.genConfigMsg w.genReply = (E3, res) :=
    ⟨_, _, rfl⟩
  have hGen' := hGen
  rw [hcfg] at hGen'
  obtain ⟨tail, hE3pre⟩ := generate_calls_model place_name place_type (humOfOpt none)
    (envVal w.gemini_api_key) hkey w.genConfigMsg w.genReply
  have hE3 : E3 = Ev.genaiCall (buildPrompt (pyStrOf place_name) place_type
      (strL "not available")) :: tail := by
    have hfst := congrArg Prod.fst hGen'
    simp only at hfst
    rw [← hfst]
    exact hE3pre
  have main_mem : ∀ ev : Ev,
      (ev = Ev.out (strL "Could not retrieve humidity data. Proceeding without it.") ∨
        ev = Ev.out (strL "Generating AI analysis...") ∨
        ev = Ev.genaiCall (buildPrompt (pyStrOf place_name) place_type
          (strL "not available"))) →
      ev ∈ (mainFn w).1 := by
    intro ev hev
    rcases res with ex | aiOpt <;>
      [skip; rcases aiOpt with _ | ai] <;>
      simp only [mainFn, h1, h2, Bool.false_eq_true, if_false, hplace, htruthy,
        Bool.true_eq_false, hname, htype, hhum, hGen, hE3] <;>
      repeat' split
    all_goals rcases hev with rfl | rfl | rfl
    all_goals simp [List.mem_append, List.mem_cons]
  refine ⟨main_mem _ (Or.inl rfl), main_mem _ (Or.inr (Or.inl rfl)),
    main_mem _ (Or.inr (Or.inr rfl)), ?_⟩
  unfold buildPrompt
  exact hasSub_middle _ _ _

/-- A run identical to the empty-analysis run except that the weather
request raises, so the climate lookup yields Absent. -/
def wWeatherDown : World :=
  { wEmptyAnalysis with weatherNet := ReqResult.raised (strL "conn reset") }

theorem C5_witness :
    pyFalsyEnv wWeatherDown.google_maps_api_key = false ∧
    pyFalsyEnv wWeatherDown.gemini_api_key = false ∧
    find_nearest_place wWeatherDown.latS wWeatherDown.lonS
      (envVal wWeatherDown.google_maps_api_key) wWeatherDown.placesNet =
      ([Ev.httpPlaces (strL "35.9132") (strL "-79.0558") (strL "maps-key")],
        Except.ok (some (Json.obj
          [(strL "name", Json.str (strL "Town School")),
           (strL "types", Json.arr [Json.str (strL "school")])]))) ∧
    pyTruthy (Json.obj
      [(strL "name", Json.str (strL "Town School")),
       (strL "types", Json.arr [Json.str (strL "school")])]) = true ∧
    pyGetDefault (Json.obj
      [(strL "name", Json.str (strL "Town School")),
       (strL "types", Json.arr [Json.str (strL "school")])]) (strL "name")
      (Json.str (strL "N/A")) = Except.ok (Json.str (strL "Town School")) ∧
    deriveType (Json.obj
      [(strL "name", Json.str (strL "Town School")),
       (strL "types", Json.arr [Json.str (strL "school")])]) =
      Except.ok (strL "School") ∧
    get_current_humidity wWeatherDown.latS wWeatherDown.lonS wWeatherDown.weatherNet =
      ([Ev.httpWeather (strL "35.9132") (strL "-79.0558"),
        Ev.out (strL "An error occurred fetching humidity data: " ++ strL "conn reset")],
        Except.ok none) ∧
    wWeatherDown.genConfigOk = true ∧
    (Ev.out (strL "Could not retrieve humidity data. Proceeding without it.") ∈
      (mainFn wWeatherDown).1 ∧
    Ev.out (strL "Generating AI analysis...") ∈ (mainFn wWeatherDown).1 ∧
    Ev.genaiCall (buildPrompt (pyStrOf (Json.str (strL "Town School"))) (strL "School")
      (strL "not available")) ∈ (mainFn wWeatherDown).1 ∧
    hasSub (strL "not available") (buildPrompt (pyStrOf (Json.str (strL "Town School")))
      (strL "School") (strL "not available")) = true) :=
  ⟨rfl, rfl, rfl, rfl, rfl, rfl, rfl, rfl,
    C5_not_available_degradation wWeatherDown _ _ _ _ _
      rfl rfl rfl rfl rfl rfl rfl rfl⟩

theorem lookupField_append (l1 l2 : List (List Char × Json)) (k : List Char) :
    lookupField (l1 ++ l2) k =
      match lookupField l1 k with
      | some v => some v
      | none => lookupField l2 k := by
  induction l1 with
  | nil => rfl
  | cons kv t ih =>
    obtain ⟨k0, v0⟩ := kv
    by_cases h : k0 = k <;> simp [lookupField, h, ih]

theorem lookupField_setKey (base : List (List Char × Json)) (key : List Char)
    (v : Json) (k : List Char) :
    lookupField (setKey base key v) k =
      if key = k then some v else lookupField base k := by
  induction base with
  | nil => rfl
  | cons kv rest ih =>
    obtain ⟨k0, v0⟩ := kv
    by_cases hk0 : k0 = key
    · subst hk0
      by_cases hkk : k0 = k <;> simp [setKey, lookupField, hkk]
    · by_cases hk0k : k0 = k
      · subst hk0k
        have hkey : ¬ key = k0 := fun he => hk0 he.symm
        simp [setKey, lookupField, hk0, hkey]
      · simp [setKey, lookupField, hk0, hk0k, ih]

theorem mergeFold_lookup : ∀ (afs base : List (List Char × Json)) (k : List Char),
    lookupField (afs.foldl (fun d kv => setKey d kv.1 kv.2) base) k =
      match lookupField afs.reverse k with
      | some v => some v
      | none => lookupField base k := by
  intro afs
  induction afs with
  | nil => intro base k; rfl
  | cons kv rest ih =>
    intro base k
    obtain ⟨k1, v1⟩ := kv
    rw [List.foldl_cons, ih, List.reverse_cons, lookupField_append]
    cases hrev : lookupField rest.reverse k with
    | some v => rfl
    | none =>
      rw [lookupField_setKey]
      by_cases h : k1 = k <;> simp [lookupField, h]

/-- C6: on a successful run the final report printed as a 4-space-indented
JSON object is the dict holding name and type from the place followed by
every key of the parsed analysis spliced in, and on any key the final
value is the analysis value when the analysis wrote the key last
(last-writer-wins), falling back to the name/type base otherwise. -/
theorem C6_final_report (w : World) (e1 e2 e3 : List Ev)
    (place place_name : Json) (place_type : List Char) (humOpt : Option Json)
    (afs : List (List Char × Json))
    (h1 : pyFalsyEnv w.google_maps_api_key = false)
    (h2 : pyFalsyEnv w.gemini_api_key = false)
    (hplace : find_nearest_place w.latS w.lonS (envVal w.google_maps_api_key)
      w.placesNet = (e1, Except.ok (some place)))
    (htruthy : pyTruthy place = true)
    (hname : pyGetDefault place (strL "name") (Json.str (strL "N/A")) =
      Except.ok place_name)
    (htype : deriveType place = Except.ok place_type)
    (hhum : get_current_humidity w.latS w.lonS w.weatherNet =
      (e2, Except.ok humOpt))
    (hgen : generate_infrastructure_analysis place_name place_type (humOfOpt humOpt)
      (envVal w.gemini_api_key) w.genConfigOk w.genConfigMsg w.genReply =
      (e3, Except.ok (some (Json.obj afs))))
    (hafs : pyTruthy (Json.obj afs) = true) :
    Ev.outJson 4 (Json.obj (mergeFields place_name place_type afs)) ∈ (mainFn w).1 ∧
    (∀ k, lookupField (mergeFields place_name place_type afs) k =
      match lookupField afs.reverse k with
      | some v => some v
      | none => lookupField
          [(strL "name", place_name), (strL "type", Json.str place_type)] k) := by
  constructor
  · simp only [mainFn, h1, h2, Bool.false_eq_true, if_false, hplace, htruthy,
      Bool.true_eq_false, hname, htype, hhum, hgen, hafs]
    simp [List.mem_append, List.mem_cons]
  · intro k
    exact mergeFold_lookup afs _ k

/-- A fully successful run: the generative reply is a fenced JSON object
holding two analysis keys. -/
def wSuccess : World :=
  { wEmptyAnalysis with
    genReply := Except.ok (strL "```json\n\x7b\"ai_summary\": \"short text\", \"is_critical\": true\x7d\n```") }

theorem C6_witness :
    pyFalsyEnv wSuccess.google_maps_api_key = false ∧
    pyFalsyEnv wSuccess.gemini_api_key = false ∧
    find_nearest_place wSuccess.latS wSuccess.lonS
      (envVal wSuccess.google_maps_api_key) wSuccess.placesNet =
      ([Ev.httpPlaces (strL "35.9132") (strL "-79.0558") (strL "maps-key")],
        Except.ok (some (Json.obj
          [(strL "name", Json.str (strL "Town School")),
           (strL "types", Json.arr [Json.str (strL "school")])]))) ∧
    pyTruthy (Json.obj
      [(strL "name", Json.str (strL "Town School")),
       (strL "types", Json.arr [Json.str (strL "school")])]) = true ∧
    pyGetDefault (Json.obj
      [(strL "name", Json.str (strL "Town School")),
       (strL "types", Json.arr [Json.str (strL "school")])]) (strL "name")
      (Json.str (strL "N/A")) = Except.ok (Json.str (strL "Town School")) ∧
    deriveType (Json.obj
      [(strL "name", Json.str (strL "Town School")),
       (strL "types", Json.arr [Json.str (strL "school")])]) =
      Except.ok (strL "School") ∧
    get_current_humidity wSuccess.latS wSuccess.lonS wSuccess.weatherNet =
      ([Ev.httpWeather (strL "35.9132") (strL "-79.0558")],
        Except.ok (some (Json.num 62))) ∧
    generate_infrastructure_analysis (Json.str (strL "Town School")) (strL "School")
      (humOfOpt (some (Json.num 62))) (envVal wSuccess.gemini_api_key)
      wSuccess.genConfigOk wSuccess.genConfigMsg wSuccess.genReply =
      ((generate_infrastructure_analysis (Json.str (strL "Town School")) (strL "School")
          (humOfOpt (some (Json.num 62))) (envVal wSuccess.gemini_api_key)
          wSuccess.genConfigOk wSuccess.genConfigMsg wSuccess.genReply).1,
        Except.ok (some (Json.obj
          [(strL "ai_summary", Json.str (strL "short text")),
           (strL "is_critical", Json.bool true)]))) ∧
    pyTruthy (Json.obj
      [(strL "ai_summary", Json.str (strL "short text")),
       (strL "is_critical", Json.bool true)]) = true ∧
    (Ev.outJson 4 (Json.obj (mergeFields (Json.str (strL "Town School"))
        (strL "School")
        [(strL "ai_summary", Json.str (strL "short text")),
         (strL "is_critical", Json.bool true)])) ∈ (mainFn wSuccess).1 ∧
    (∀ k, lookupField (mergeFields (Json.str (strL "Town School")) (strL "School")
        [(strL "ai_summary", Json.str (strL "short text")),
         (strL "is_critical", Json.bool true)]) k =
      match lookupField ([(strL "ai_summary", Json.str (strL "short text")),
          (strL "is_critical", Json.bool true)] :
            List (List Char × Json)).reverse k with
      | some v => some v
      | none => lookupField
          [(strL "name", Json.str (strL "Town School")),
           (strL "type", Json.str (strL "School"))] k)) :=
  ⟨rfl, rfl, rfl, rfl, rfl, rfl, rfl, rfl, rfl,
    C6_final_report wSuccess _ _ _ _ _ _ _ _
      rfl rfl rfl rfl rfl rfl rfl rfl rfl⟩
